import Mathlib

/-!
# Order service: enrichment pipeline and resilient transport

A shallow embedding of the order presenter
(`internal/order/presenter/order_presenter_impl.go`), the remote clients
(`internal/infrastructure/clients`), the retrying HTTP client
(`internal/shared/httpclient/http_client.go`), the use cases that add an order
and update its status (`internal/order/usecase`) and the controller method `Add`
(`internal/order/controller/order_controller_impl.go`).

Conventions of the embedding.

* Go `uint` values are natural numbers, Go `int` values are integers; where
  the code does arithmetic on a 64-bit integer the wrap-around is explicit.
* A `float32` is only copied by the modelled code and is represented by its
  bit pattern; a `time.Time` is only copied or formatted.
* A pointer to a struct that the code dereferences unconditionally is
  represented by the struct value; a pointer used as an optional value is an
  `Option`.
* A Go result pair `(value, error)` is an `Except` for the interfaces that the
  presenter consumes; the client implementations return the pair itself, each
  half an `Option` with `none` for `nil`. An `error` is represented by the text
  of its `Error()` method, the only thing the code reads from it.
* Calls to collaborators and to the logger are recorded as a list of events
  returned next to the result.
* The caller's context reaches the code only through `h.client.Do`, whose
  behaviour on a done context is the standard library's.
* Where the code dereferences an optional pointer, the call ends in an `Outcome`:
  a returned value or a panic. The presenter is embedded a second time over the
  clients' Go result pairs (`PresentOutcome`), where a client may hand over `nil`
  with a `nil` error; over clients that never do so it returns what `Present`
  computes (`PresentOutcome_asPairs`).
-/

namespace OrderService

/-! ## Data model -/

/-- Go `float32`, represented by its IEEE-754 bit pattern. -/
structure Float32 where
  bits : Nat
deriving DecidableEq, Repr

/-- Go `time.Time`, represented by its instant in nanoseconds. -/
structure Time where
  unixNano : Int
deriving DecidableEq, Repr

/-- Entity `entities.OrderProductEntity` (the `Order` association is not read by the presenter). -/
structure OrderProductEntity where
  ID : Nat
  OrderId : Nat
  ProductId : Nat
  Price : Float32
  Quantity : Nat
deriving DecidableEq, Repr

/-- Entity `entities.OrderStatusEntity` (the `Order` association is not read by the presenter). -/
structure OrderStatusEntity where
  ID : Nat
  CreatedAt : Time
  CurrentStatus : Nat
  OrderId : Nat
deriving DecidableEq, Repr

/-- Entity `entities.OrderEntity`. -/
structure OrderEntity where
  ID : Nat
  CreatedAt : Time
  TotalAmount : Float32
  CustomerId : Nat
  Products : List OrderProductEntity
  Status : List OrderStatusEntity
deriving DecidableEq, Repr

/-- Remote customer record `clients.CustomerDTO`. -/
structure CustomerDTO where
  ID : Nat
  Name : String
  CPF : Nat
  Email : String
deriving DecidableEq, Repr

/-- Remote product record `clients.ProductDTO`. -/
structure ProductDTO where
  ID : Nat
  Name : String
  Description : String
  Price : Float32
  Category : Int
  ImageLink : String
deriving DecidableEq, Repr

/-- Response part `dto.CustomerDto`. -/
structure CustomerDto where
  ID : Nat
  Name : String
  Email : String
  CPF : Nat
deriving DecidableEq, Repr

/-- Response part `dto.OrderProductDto`. -/
structure OrderProductDto where
  ProductId : Nat
  Price : Float32
  Quantity : Nat
  Name : String
  Description : String
  Category : Int
  ImageLink : String
deriving DecidableEq, Repr

/-- Response part `dto.GetOrderStatusResponseDto`. -/
structure GetOrderStatusResponseDto where
  ID : Nat
  CreatedAt : String
  CurrentStatus : Nat
  CurrentStatusDescription : String
  OrderId : Nat
deriving DecidableEq, Repr

/-- Response `dto.GetOrderResponseDto`; `Customer` is a nullable pointer, and each
entry of `Status` is a nullable pointer. -/
structure GetOrderResponseDto where
  ID : Nat
  CreatedAt : Time
  TotalAmount : Float32
  CustomerId : Nat
  Customer : Option CustomerDto
  Products : List OrderProductDto
  Status : List (Option GetOrderStatusResponseDto)
deriving DecidableEq, Repr

/-! ## Remote client interfaces -/

/-- Interface `clients.CustomerClient`. -/
structure CustomerClient where
  GetCustomer : Nat → Except String CustomerDTO

/-- Interface `clients.ProductClient`. -/
structure ProductClient where
  GetProduct : Nat → Except String ProductDTO
  GetProducts : List Nat → Except String (List ProductDTO)
  ValidateProduct : Nat → Except String Bool

/-- Struct `presenter.OrderPresenterImpl`. -/
structure OrderPresenterImpl where
  customerClient : CustomerClient
  productClient : ProductClient

/-- Observable effects of the presenter: calls to the two clients and log lines. -/
inductive Event where
  | getCustomer (customerID : Nat)
  | getProducts (productIDs : List Nat)
  | log (msg : String)
deriving DecidableEq, Repr

/-! ## Order status projection -/

/-- Function `GetStatusDescription`. -/
def GetStatusDescription (status : Nat) : Except String String :=
  match status with
  | 1 => .ok "Recebido"
  | 2 => .ok "Em preparação"
  | 3 => .ok "Pronto"
  | 4 => .ok "Finalizado"
  | _ => .error "status not found"

/-! ## Presenter -/

/-- A Go `map[uint]*clients.ProductDTO`, as a lookup function. -/
abbrev ProductMap := Nat → Option ProductDTO

/-- The result of `make(map[uint]*clients.ProductDTO)`. -/
def ProductMap.empty : ProductMap := fun _ => none

/-- The assignment `productMap[k] = v`. -/
def ProductMap.insert (m : ProductMap) (k : Nat) (v : ProductDTO) : ProductMap :=
  fun j => if j = k then some v else m j

/-- The loop `for _, product := range products { productMap[product.ID] = product }`. -/
def buildProductMap (products : List ProductDTO) : ProductMap :=
  products.foldl (fun m product => m.insert product.ID product) ProductMap.empty

/-- The literal `&dto.OrderProductDto{ProductId: .., Price: .., Quantity: ..}`: the
fields that are not named take their zero value. -/
def basicOrderProductDto (orderProduct : OrderProductEntity) : OrderProductDto :=
  { ProductId := orderProduct.ProductId
    Price := orderProduct.Price
    Quantity := orderProduct.Quantity
    Name := ""
    Description := ""
    Category := 0
    ImageLink := "" }

/-- The body of the enrichment loop of `PresentProducts` for one order line. -/
def enrichOrderProduct (productMap : ProductMap) (orderProduct : OrderProductEntity) :
    OrderProductDto :=
  match productMap orderProduct.ProductId with
  | some product =>
    { ProductId := orderProduct.ProductId
      Price := orderProduct.Price
      Quantity := orderProduct.Quantity
      Name := product.Name
      ImageLink := product.ImageLink
      Description := product.Description
      Category := product.Category }
  | none => basicOrderProductDto orderProduct

/-- Method `OrderPresenterImpl.PresentProducts`. -/
def PresentProducts (p : OrderPresenterImpl) (orderProducts : List OrderProductEntity) :
    List OrderProductDto × List Event :=
  let productIDs := orderProducts.map (fun orderProduct => orderProduct.ProductId)
  match p.productClient.GetProducts productIDs with
  | .error err =>
    (orderProducts.map basicOrderProductDto,
      [Event.getProducts productIDs, Event.log ("failed to fetch products: " ++ err)])
  | .ok products =>
    let productMap := buildProductMap products
    (orderProducts.map (enrichOrderProduct productMap), [Event.getProducts productIDs])

/-- Method `OrderPresenterImpl.PresentStatus`; `format` is `time.Time.Format(time.RFC3339)`. -/
def PresentStatus (format : Time → String) (orderStatus : OrderStatusEntity) :
    Option GetOrderStatusResponseDto :=
  match GetStatusDescription orderStatus.CurrentStatus with
  | .error _ => none
  | .ok statusDescription =>
    some { ID := orderStatus.ID
           CreatedAt := format orderStatus.CreatedAt
           CurrentStatus := orderStatus.CurrentStatus
           CurrentStatusDescription := statusDescription
           OrderId := orderStatus.OrderId }

/-- Method `OrderPresenterImpl.PresentMultipleStatus`. -/
def PresentMultipleStatus (format : Time → String) (orderStatus : List OrderStatusEntity) :
    List (Option GetOrderStatusResponseDto) :=
  orderStatus.map (PresentStatus format)

/-- The customer part of `Present`: the guard on `order.CustomerId`, the call and
its two branches. -/
def presentCustomer (p : OrderPresenterImpl) (customerId : Nat) :
    Option CustomerDto × List Event :=
  if customerId ≠ 0 then
    match p.customerClient.GetCustomer customerId with
    | .error err =>
      (none, [Event.getCustomer customerId,
        Event.log ("failed to fetch customer " ++ toString customerId ++ ": " ++ err)])
    | .ok customerData =>
      (some { ID := customerData.ID
              Name := customerData.Name
              Email := customerData.Email
              CPF := customerData.CPF },
        [Event.getCustomer customerId])
  else (none, [])

/-- Method `OrderPresenterImpl.Present`. -/
def Present (format : Time → String) (p : OrderPresenterImpl) (order : OrderEntity) :
    GetOrderResponseDto × List Event :=
  let customer := presentCustomer p order.CustomerId
  let products := PresentProducts p order.Products
  ({ ID := order.ID
     CreatedAt := order.CreatedAt
     TotalAmount := order.TotalAmount
     CustomerId := order.CustomerId
     Customer := customer.1
     Products := products.1
     Status := PresentMultipleStatus format order.Status },
    customer.2 ++ products.2)

/-! ## Resilient transport -/

/-- Wrap-around of an integer into the range of a Go `int64` (also `int` and
`time.Duration` on the 64-bit target). -/
def toInt64 (x : Int) : Int := (x + 2 ^ 63) % 2 ^ 64 - 2 ^ 63

/-- The conversion `uint(x)` of a Go `int`. -/
def toUint64 (x : Int) : Nat := (x % 2 ^ 64).toNat

/-- The values of a Go `int64`. -/
def isInt64 (x : Int) : Prop := -(2 ^ 63) ≤ x ∧ x < 2 ^ 63

instance (x : Int) : Decidable (isInt64 x) := by
  unfold isInt64
  exact inferInstance

/-- The shift `1 << s` at type `time.Duration`: a shift count of 64 or more gives 0. -/
def shiftLeftOne (s : Nat) : Int := if s < 64 then toInt64 (2 ^ s) else 0

/-- Struct `httpClientImpl`: the timeout of the underlying `http.Client`, the
retry count (an `int`) and the base backoff (a `time.Duration`, in nanoseconds). -/
structure httpClientImpl where
  timeout : Int
  retries : Int
  backoff : Int
deriving DecidableEq, Repr

/-- Function `NewHTTPClient`. -/
def NewHTTPClient (timeout : Int) (retries : Int) (backoff : Int) : httpClientImpl :=
  { timeout := timeout, retries := retries, backoff := backoff }

/-- Outcome of one call `h.client.Do(req)`: a transport-level error, or a
response with its status code and the text of its body. -/
inductive DoResult where
  | err (e : String)
  | resp (StatusCode : Int) (body : String)
deriving DecidableEq, Repr

/-- Observable effects of the transport: a call of `time.Sleep` with its
argument, and a call of `h.client.Do`. -/
inductive TransportEvent where
  | sleep (d : Int)
  | request
deriving DecidableEq, Repr

/-- What a call of the transport leaves behind: the returned `error` (`none` is
`nil`), the value decoded into the target, and the effects in order. -/
structure Run (α : Type) where
  err : Option String
  decoded : Option α
  trace : List TransportEvent
deriving DecidableEq, Repr

/-- Puts effects that happened earlier in front of those of a run. -/
def Run.after {α : Type} (events : List TransportEvent) (r : Run α) : Run α :=
  { err := r.err, decoded := r.decoded, trace := events ++ r.trace }

/-- The expression `h.backoff * time.Duration(1<<uint(attempt-1))`. -/
def backoffDuration (h : httpClientImpl) (attempt : Int) : Int :=
  toInt64 (h.backoff * shiftLeftOne (toUint64 (attempt - 1)))

/-- The effects at the head of one iteration: the sleep, when `attempt > 0`. -/
def sleepBefore (h : httpClientImpl) (attempt : Int) : List TransportEvent :=
  if attempt > 0 then [TransportEvent.sleep (backoffDuration h attempt)] else []

/-- The error built when `h.client.Do` fails. -/
def requestFailedError (h : httpClientImpl) (attempt : Int) (e : String) : String :=
  "HTTP request failed (attempt " ++ toString (toInt64 (attempt + 1)) ++ "/" ++
    toString (toInt64 (h.retries + 1)) ++ "): " ++ e

/-- The error built for a response whose status is outside [200,300). -/
def statusFailedError (h : httpClientImpl) (attempt : Int) (StatusCode : Int) (body : String) :
    String :=
  "HTTP request failed with status " ++ toString StatusCode ++ " (attempt " ++
    toString (toInt64 (attempt + 1)) ++ "/" ++ toString (toInt64 (h.retries + 1)) ++ "): " ++ body

/-- The loop of `doWithRetry`, from the test `attempt <= h.retries` on. `Do k` is
the outcome of the call of `h.client.Do` that follows `k` earlier calls,
`response` is the decoder of the target (`none` when the target is `nil`), and
`fuel` bounds the number of times the loop test is evaluated: `none` is
returned when it runs out. -/
def doWithRetryLoop {α : Type} (h : httpClientImpl) (Do : Nat → DoResult)
    (response : Option (String → Except String α)) :
    Nat → Int → Nat → Option String → Option (Run α)
  | 0, _, _, _ => none
  | fuel + 1, attempt, calls, lastErr =>
    if attempt ≤ h.retries then
      let events := sleepBefore h attempt ++ [TransportEvent.request]
      match Do calls with
      | .err e =>
        (doWithRetryLoop h Do response fuel (toInt64 (attempt + 1)) (calls + 1)
          (some (requestFailedError h attempt e))).map (Run.after events)
      | .resp StatusCode body =>
        if StatusCode < 200 ∨ StatusCode ≥ 300 then
          if StatusCode ≥ 400 ∧ StatusCode < 500 then
            some { err := some (statusFailedError h attempt StatusCode body)
                   decoded := none
                   trace := events }
          else
            (doWithRetryLoop h Do response fuel (toInt64 (attempt + 1)) (calls + 1)
              (some (statusFailedError h attempt StatusCode body))).map (Run.after events)
        else
          match response with
          | some decode =>
            match decode body with
            | .error e =>
              some { err := some ("failed to decode response: " ++ e)
                     decoded := none
                     trace := events }
            | .ok v => some { err := none, decoded := some v, trace := events }
          | none => some { err := none, decoded := none, trace := events }
    else some { err := lastErr, decoded := none, trace := [] }

/-- Method `httpClientImpl.doWithRetry`. -/
def doWithRetry {α : Type} (h : httpClientImpl) (Do : Nat → DoResult)
    (response : Option (String → Except String α)) (fuel : Nat) : Option (Run α) :=
  doWithRetryLoop h Do response fuel 0 0 none

/-- Method `httpClientImpl.Get`; `newRequest` is the outcome of
`http.NewRequestWithContext`. -/
def Get {α : Type} (h : httpClientImpl) (newRequest : Except String Unit)
    (Do : Nat → DoResult) (response : Option (String → Except String α)) (fuel : Nat) :
    Option (Run α) :=
  match newRequest with
  | .error err =>
    some { err := some ("failed to create GET request: " ++ err), decoded := none, trace := [] }
  | .ok _ => doWithRetry h Do response fuel

/-- Method `httpClientImpl.Post`; `body` is `none` for a `nil` body and otherwise
the outcome of `json.Marshal(body)`, `newRequest` is the outcome of
`http.NewRequestWithContext`. -/
def Post {α : Type} (h : httpClientImpl) (body : Option (Except String String))
    (newRequest : Except String Unit) (Do : Nat → DoResult)
    (response : Option (String → Except String α)) (fuel : Nat) : Option (Run α) :=
  match body with
  | some (.error err) =>
    some { err := some ("failed to marshal request body: " ++ err), decoded := none, trace := [] }
  | _ =>
    match newRequest with
    | .error err =>
      some { err := some ("failed to create POST request: " ++ err), decoded := none, trace := [] }
    | .ok _ => doWithRetry h Do response fuel

/-- An attempt outcome after which the loop goes on: a transport-level error, or
a status outside [200,300) that is not in [400,500). -/
def retryable : DoResult → Bool
  | .err _ => true
  | .resp StatusCode _ =>
    (decide (StatusCode < 200) || decide (StatusCode ≥ 300)) &&
      !(decide (StatusCode ≥ 400) && decide (StatusCode < 500))

/-- The error that the loop stores in `lastErr` for an attempt that failed. -/
def attemptError (h : httpClientImpl) (attempt : Int) : DoResult → String
  | .err e => requestFailedError h attempt e
  | .resp StatusCode body => statusFailedError h attempt StatusCode body

/-- Number of calls of `h.client.Do` in a trace. -/
def requestCount (trace : List TransportEvent) : Nat :=
  (trace.filter (fun ev => decide (ev = TransportEvent.request))).length

/-- The arguments of the calls of `time.Sleep` in a trace, in order. -/
def sleeps : List TransportEvent → List Int
  | [] => []
  | .sleep d :: rest => d :: sleeps rest
  | .request :: rest => sleeps rest

/-- Recogniser of the calls of `ProductClient.GetProducts` among the effects. -/
def isGetProductsCall : Event → Bool
  | .getProducts _ => true
  | _ => false

/-- Recogniser of the calls of `CustomerClient.GetCustomer` among the effects. -/
def isGetCustomerCall : Event → Bool
  | .getCustomer _ => true
  | _ => false

/-- The fields of an output line that come from the order line itself. -/
def localFields (d : OrderProductDto) : Nat × Float32 × Nat :=
  (d.ProductId, d.Price, d.Quantity)

/-- The same three fields, read from the order line. -/
def lineFields (orderProduct : OrderProductEntity) : Nat × Float32 × Nat :=
  (orderProduct.ProductId, orderProduct.Price, orderProduct.Quantity)

/-- The enrichment fields of an output line are all at their zero value. -/
def enrichmentEmpty (d : OrderProductDto) : Prop :=
  d.Name = "" ∧ d.Description = "" ∧ d.Category = 0 ∧ d.ImageLink = ""

/-- The enrichment fields of an output line are those of the product. -/
def enrichedFrom (product : ProductDTO) (d : OrderProductDto) : Prop :=
  d.Name = product.Name ∧ d.Description = product.Description ∧
    d.Category = product.Category ∧ d.ImageLink = product.ImageLink

/-- The effects of `m` consecutive iterations of the loop of `doWithRetry` that
each reach the call of `h.client.Do`, the first of them with `attempt = a`. -/
def attemptEvents (h : httpClientImpl) (a : Nat) : Nat → List TransportEvent
  | 0 => []
  | m + 1 => sleepBefore h a ++ [TransportEvent.request] ++ attemptEvents h (a + 1) m

/-- The value of `lastErr` after `m` consecutive failed iterations, the first of
them with `attempt = a`. -/
def lastErrAfter (h : httpClientImpl) (Do : Nat → DoResult) (a : Nat) :
    Nat → Option String → Option String
  | 0, lastErr => lastErr
  | m + 1, _ => some (attemptError h ((a + m : Nat) : Int) (Do (a + m)))

/-- The schedule in the words of the specification, for a call with `N`
retries: the first attempt has no wait, and the `k`-th retry is preceded by a
wait of `b * 2^(k-1)`. -/
def specSchedule (b : Int) : Nat → List TransportEvent
  | 0 => [TransportEvent.request]
  | N + 1 => specSchedule b N ++ [TransportEvent.sleep (b * 2 ^ N), TransportEvent.request]

/-! ## Cancellation signal -/

/-- The caller's `context.Context` as the transport's attempts see it: `done k`
tells whether the signal is cancelled when the call of `h.client.Do` that follows
`k` earlier calls is made, and `err` is the text of the error that the call then
returns. -/
structure Context where
  done : Nat → Bool
  err : String

/-- The calls `h.client.Do(req)` for a request built by
`http.NewRequestWithContext(ctx, ..)`: the standard library answers a call whose
context is done with the context's error and no exchange with the server;
otherwise the outcome is the one of the exchange, `net k`. -/
def clientDo (ctx : Context) (net : Nat → DoResult) : Nat → DoResult :=
  fun k => if ctx.done k then DoResult.err ctx.err else net k

/-! ## Text search -/

/-- Whether the characters `substr` occur as a contiguous run in the characters `s`. -/
def containsChars (substr : List Char) : List Char → Bool
  | [] => substr.isPrefixOf []
  | c :: cs => substr.isPrefixOf (c :: cs) || containsChars substr cs

/-- Go `strings.Contains(s, substr)`. -/
def stringsContains (s : String) (substr : String) : Bool :=
  containsChars substr.data s.data

/-! ## Remote client implementations -/

/-- Interface `httpclient.HTTPClient` as a typed client uses it: `Get k url` is the
outcome of the call `Get(ctx, url, &target)` that follows `k` earlier calls, made
with a zero-valued target: the returned error, or `nil` together with the value
left in the target. -/
structure HTTPClient (α : Type) where
  Get : Nat → String → Except String α

/-- Observable effect of a remote client: a call of `httpClient.Get` with its URL. -/
inductive ClientEvent where
  | get (url : String)
deriving DecidableEq, Repr

/-- Struct `customerClientImpl`. -/
structure customerClientImpl where
  httpClient : HTTPClient CustomerDTO
  baseURL : String

/-- Struct `productClientImpl`. -/
structure productClientImpl where
  httpClient : HTTPClient ProductDTO
  baseURL : String

/-- The URL `fmt.Sprintf("%s/v1/customer/%d", c.baseURL, customerID)`. -/
def customerURL (baseURL : String) (customerID : Nat) : String :=
  baseURL ++ "/v1/customer/" ++ toString customerID

/-- The URL `fmt.Sprintf("%s/v1/product/%d", c.baseURL, productID)`. -/
def productURL (baseURL : String) (productID : Nat) : String :=
  baseURL ++ "/v1/product/" ++ toString productID

/-- Method `customerClientImpl.GetCustomer`, called after `calls` earlier calls of
the transport. The result is the Go pair: the pointer (`none` is `nil`) and the
error (`none` is `nil`). -/
def customerClientImpl.GetCustomer (c : customerClientImpl) (calls : Nat) (customerID : Nat) :
    (Option CustomerDTO × Option String) × List ClientEvent :=
  let url := customerURL c.baseURL customerID
  match c.httpClient.Get calls url with
  | .error err =>
    ((none, some ("failed to fetch customer " ++ toString customerID ++ ": " ++ err)),
      [ClientEvent.get url])
  | .ok customer => ((some customer, none), [ClientEvent.get url])

/-- Method `productClientImpl.GetProduct`, called after `calls` earlier calls of
the transport. -/
def productClientImpl.GetProduct (c : productClientImpl) (calls : Nat) (productID : Nat) :
    (Option ProductDTO × Option String) × List ClientEvent :=
  let url := productURL c.baseURL productID
  match c.httpClient.Get calls url with
  | .error err =>
    ((none, some ("failed to fetch product " ++ toString productID ++ ": " ++ err)),
      [ClientEvent.get url])
  | .ok product => ((some product, none), [ClientEvent.get url])

/-- The loop of `productClientImpl.GetProducts` over the ids that remain, with the
slice `products` built so far; a slice of pointers is a list of options, and the
returned slice is `none` when it is `nil`. -/
def productClientImpl.fetchEach (c : productClientImpl) :
    List Nat → Nat → List (Option ProductDTO) →
      (Option (List (Option ProductDTO)) × Option String) × List ClientEvent
  | [], _, products => ((some products, none), [])
  | productID :: rest, calls, products =>
    match c.GetProduct calls productID with
    | ((_, some err), events) =>
      ((none, some ("failed to fetch product " ++ toString productID ++ ": " ++ err)), events)
    | ((product, none), events) =>
      let later := productClientImpl.fetchEach c rest (calls + 1) (products ++ [product])
      (later.1, events ++ later.2)

/-- Method `productClientImpl.GetProducts`, called after `calls` earlier calls of
the transport. -/
def productClientImpl.GetProducts (c : productClientImpl) (calls : Nat) (productIDs : List Nat) :
    (Option (List (Option ProductDTO)) × Option String) × List ClientEvent :=
  if productIDs.length = 0 then ((some [], none), [])
  else productClientImpl.fetchEach c productIDs calls []

/-- Method `productClientImpl.ValidateProduct`, called after `calls` earlier calls
of the transport. -/
def productClientImpl.ValidateProduct (c : productClientImpl) (calls : Nat) (productID : Nat) :
    (Bool × Option String) × List ClientEvent :=
  match c.GetProduct calls productID with
  | ((_, some err), events) =>
    if stringsContains err "404" then ((false, none), events)
    else ((false, some err), events)
  | ((product, none), events) =>
    ((match product with
      | some found => decide (found.ID = productID)
      | none => false, none), events)

/-! ## Presenting several orders -/

/-- Modelled from the spec: the declaration of `dto.GetOrdersResponseDto` is not
among the sources; it is the response of `PresentMany`, the sequence of the views
of the orders, which `PresentOrders` stores in the field `Orders`. -/
structure GetOrdersResponseDto where
  Orders : List GetOrderResponseDto
deriving DecidableEq, Repr

/-- The loop of `PresentOrders`: the views of the orders, in order, and the
effects of presenting them one after the other. -/
def presentEach (format : Time → String) (p : OrderPresenterImpl) :
    List OrderEntity → List GetOrderResponseDto × List Event
  | [] => ([], [])
  | order :: rest =>
    let first := Present format p order
    let later := presentEach format p rest
    (first.1 :: later.1, first.2 ++ later.2)

/-- Method `OrderPresenterImpl.PresentOrders`. -/
def PresentOrders (format : Time → String) (p : OrderPresenterImpl) (orders : List OrderEntity) :
    GetOrdersResponseDto × List Event :=
  let orderDto := presentEach format p orders
  ({ Orders := orderDto.1 }, orderDto.2)

/-! ## Use cases and controller -/

/-- The zero value of `time.Time`: the first instant of year 1, in nanoseconds
from the Unix epoch. -/
def zeroTime : Time := ⟨-62135596800000000000⟩

/-- Request part `dto.AddOrderProductDto`. -/
structure AddOrderProductDto where
  ProductId : Nat
  Quantity : Nat
  Price : Float32
deriving DecidableEq, Repr

/-- Request `dto.AddOrderDto`; `CustomerId` is a `*uint`, `none` when it is `nil`. -/
structure AddOrderDto where
  CustomerId : Option Nat
  TotalAmount : Float32
  Products : List AddOrderProductDto
deriving DecidableEq, Repr

/-- Command `commands.AddOrderCommand`. -/
structure AddOrderCommand where
  CustomerId : Nat
  TotalAmount : Float32
  Products : List AddOrderProductDto
deriving DecidableEq, Repr

/-- Function `commands.NewAddOrderCommand`. -/
def NewAddOrderCommand (customerId : Nat) (totalAmount : Float32)
    (products : List AddOrderProductDto) : AddOrderCommand :=
  { CustomerId := customerId, TotalAmount := totalAmount, Products := products }

/-- Command `commands.UpdateOrderStatusCommand`. -/
structure UpdateOrderStatusCommand where
  OrderId : Nat
  Status : Nat
deriving DecidableEq, Repr

/-- Function `commands.NewUpdateOrderStatusCommand`. -/
def NewUpdateOrderStatusCommand (orderId : Nat) (status : Nat) : UpdateOrderStatusCommand :=
  { OrderId := orderId, Status := status }

/-- Interface `repositories.OrderRepository`. -/
structure OrderRepository where
  AddOrder : OrderEntity → Except String OrderEntity
  GetOrder : Nat → Except String OrderEntity
  GetOrders : Except String (List OrderEntity)

/-- Interface `repositories.OrderProductRepository`; `AddOrderProduct k` is the
call that follows `k` earlier calls, and its result is the returned error, `none`
for `nil`. -/
structure OrderProductRepository where
  AddOrderProduct : Nat → OrderProductEntity → Option String

/-- Interface `repositories.OrderStatusRepository`; the result of `AddOrderStatus`
is the returned error, `none` for `nil`. -/
structure OrderStatusRepository where
  AddOrderStatus : OrderStatusEntity → Option String
  GetOrderStatus : Nat → Except String OrderStatusEntity

/-- Observable effects of a use case: the calls of the repositories with the
entity handed over, and the calls of the remote clients. -/
inductive UseCaseEvent where
  | addOrder (order : OrderEntity)
  | addOrderProduct (orderProduct : OrderProductEntity)
  | addOrderStatus (orderStatus : OrderStatusEntity)
  | remote (call : Event)
deriving DecidableEq, Repr

/-- Struct `addorder.AddOrderUseCaseImpl`. -/
structure AddOrderUseCaseImpl where
  orderRepository : OrderRepository
  orderProductRepository : OrderProductRepository
  orderStatusRepository : OrderStatusRepository
  customerClient : CustomerClient
  productClient : ProductClient

/-- The literal `&entities.OrderEntity{CustomerId: .., TotalAmount: ..}` of `Execute`. -/
def newOrderEntity (command : AddOrderCommand) : OrderEntity :=
  { ID := 0, CreatedAt := zeroTime, TotalAmount := command.TotalAmount,
    CustomerId := command.CustomerId, Products := [], Status := [] }

/-- The literal `&entities.OrderProductEntity{OrderId: .., ProductId: .., Price: ..,
Quantity: ..}` of `Execute`. -/
def newOrderProductEntity (orderId : Nat) (orderProductDto : AddOrderProductDto) :
    OrderProductEntity :=
  { ID := 0, OrderId := orderId, ProductId := orderProductDto.ProductId,
    Price := orderProductDto.Price, Quantity := orderProductDto.Quantity }

/-- The literal `&entities.OrderStatusEntity{OrderId: .., CurrentStatus: ..}`. -/
def newOrderStatusEntity (orderId : Nat) (status : Nat) : OrderStatusEntity :=
  { ID := 0, CreatedAt := zeroTime, CurrentStatus := status, OrderId := orderId }

/-- The loop `for _, orderProductDto := range command.Products` of `Execute`, from
the line that follows `k` stored lines on: the error that ends it (`none` when
every line is stored) and the repository calls made. -/
def AddOrderUseCaseImpl.addOrderProducts (u : AddOrderUseCaseImpl) (orderId : Nat) :
    List AddOrderProductDto → Nat → Option String × List UseCaseEvent
  | [], _ => (none, [])
  | orderProductDto :: rest, k =>
    let orderProductEntity := newOrderProductEntity orderId orderProductDto
    match u.orderProductRepository.AddOrderProduct k orderProductEntity with
    | some err => (some err, [UseCaseEvent.addOrderProduct orderProductEntity])
    | none =>
      let later := AddOrderUseCaseImpl.addOrderProducts u orderId rest (k + 1)
      (later.1, UseCaseEvent.addOrderProduct orderProductEntity :: later.2)

/-- Method `AddOrderUseCaseImpl.Execute`: the returned pair, order id and error
(`none` for `nil`), and the calls made. The slice `productIDs` is built and not
read again. -/
def AddOrderUseCaseImpl.Execute (u : AddOrderUseCaseImpl) (command : AddOrderCommand) :
    (String × Option String) × List UseCaseEvent :=
  let _productIDs := command.Products.map (fun p => p.ProductId)
  let order := newOrderEntity command
  match u.orderRepository.AddOrder order with
  | .error err => (("", some err), [UseCaseEvent.addOrder order])
  | .ok orderResult =>
    match AddOrderUseCaseImpl.addOrderProducts u orderResult.ID command.Products 0 with
    | (some err, events) => (("", some err), UseCaseEvent.addOrder order :: events)
    | (none, events) =>
      let orderStatusEntity := newOrderStatusEntity orderResult.ID 1
      match u.orderStatusRepository.AddOrderStatus orderStatusEntity with
      | some err =>
        (("", some err),
          UseCaseEvent.addOrder order :: (events ++ [UseCaseEvent.addOrderStatus orderStatusEntity]))
      | none =>
        ((toString orderResult.ID, none),
          UseCaseEvent.addOrder order :: (events ++ [UseCaseEvent.addOrderStatus orderStatusEntity]))

/-- Struct `updateorderstatus.UpdateOrderStatusUseCaseImpl`. -/
structure UpdateOrderStatusUseCaseImpl where
  orderStatusRepository : OrderStatusRepository

/-- Method `UpdateOrderStatusUseCaseImpl.Execute`: the returned error and the call made. -/
def UpdateOrderStatusUseCaseImpl.Execute (u : UpdateOrderStatusUseCaseImpl)
    (command : UpdateOrderStatusCommand) : Option String × List UseCaseEvent :=
  let orderStatusEntity := newOrderStatusEntity command.OrderId command.Status
  match u.orderStatusRepository.AddOrderStatus orderStatusEntity with
  | some err => (some err, [UseCaseEvent.addOrderStatus orderStatusEntity])
  | none => (none, [UseCaseEvent.addOrderStatus orderStatusEntity])

/-- Interface `addorder.AddOrderUseCase`: the returned pair, order id and error. -/
structure AddOrderUseCase where
  Execute : AddOrderCommand → String × Option String

/-- The use case implementation behind the interface. -/
def AddOrderUseCaseImpl.asUseCase (u : AddOrderUseCaseImpl) : AddOrderUseCase :=
  { Execute := fun command => (u.Execute command).1 }

/-- How a Go call ends: it returns a value, or it panics. -/
inductive Outcome (α : Type) where
  | returned (value : α)
  | panic (msg : String)
deriving DecidableEq, Repr

/-- Struct `controller.OrderControllerImpl` (the fields that `Add` does not read
are left out). -/
structure OrderControllerImpl where
  addOrderUseCase : AddOrderUseCase

/-- Method `OrderControllerImpl.Add`: the arguments of `NewAddOrderCommand` are
evaluated first, and `*addOrderRequest.CustomerId` dereferences the pointer. -/
def OrderControllerImpl.Add (c : OrderControllerImpl) (addOrderRequest : AddOrderDto) :
    Outcome (String × Option String) :=
  match addOrderRequest.CustomerId with
  | none => Outcome.panic "runtime error: invalid memory address or nil pointer dereference"
  | some customerId =>
    match c.addOrderUseCase.Execute
        (NewAddOrderCommand customerId addOrderRequest.TotalAmount addOrderRequest.Products) with
    | (_, some err) => Outcome.returned ("", some err)
    | (orderId, none) => Outcome.returned (orderId, none)

/-- The status codes of the specification's status vocabulary. -/
def validStatusCode (status : Nat) : Prop :=
  status = 1 ∨ status = 2 ∨ status = 3 ∨ status = 4

instance (status : Nat) : Decidable (validStatusCode status) := by
  unfold validStatusCode
  exact inferInstance

/-- Recogniser of the calls of a remote client among the effects of a use case. -/
def isRemoteCall : UseCaseEvent → Bool
  | .remote _ => true
  | _ => false

/-! ## Presenter over the clients' Go result pairs

The presenter once more, with the result of each client call kept as the pair
that Go hands over: the pointer or slice (`none` for `nil`, and a slice of
pointers is a list of options) and the error (`none` for `nil`). A dereference of
a `nil` pointer is a panic. -/

/-- Interface `clients.CustomerClient`, with the result pair of `GetCustomer`:
the pointer and the error. -/
structure CustomerClientPairs where
  GetCustomer : Nat → Option CustomerDTO × Option String

/-- Interface `clients.ProductClient`, with the result pairs of its methods. -/
structure ProductClientPairs where
  GetProduct : Nat → Option ProductDTO × Option String
  GetProducts : List Nat → Option (List (Option ProductDTO)) × Option String
  ValidateProduct : Nat → Bool × Option String

/-- Struct `presenter.OrderPresenterImpl` over clients that return result pairs. -/
structure OrderPresenterPairs where
  customerClient : CustomerClientPairs
  productClient : ProductClientPairs

/-- The text of the panic of a `nil` pointer dereference. -/
def nilDereference : String := "runtime error: invalid memory address or nil pointer dereference"

/-- The loop `for _, product := range products { productMap[product.ID] = product }`
over a slice of pointers: `product.ID` on a `nil` entry panics. -/
def buildProductMapOutcome : List (Option ProductDTO) → ProductMap → Outcome ProductMap
  | [], productMap => Outcome.returned productMap
  | none :: _, _ => Outcome.panic nilDereference
  | some product :: rest, productMap =>
    buildProductMapOutcome rest (productMap.insert product.ID product)

/-- Method `OrderPresenterImpl.PresentProducts` over result pairs: the error is
tested first; with a `nil` error the returned slice is ranged over (a `nil`
slice has no entry). -/
def PresentProductsOutcome (p : OrderPresenterPairs) (orderProducts : List OrderProductEntity) :
    Outcome (List OrderProductDto × List Event) :=
  let productIDs := orderProducts.map (fun orderProduct => orderProduct.ProductId)
  match p.productClient.GetProducts productIDs with
  | (_, some err) =>
    Outcome.returned (orderProducts.map basicOrderProductDto,
      [Event.getProducts productIDs, Event.log ("failed to fetch products: " ++ err)])
  | (products, none) =>
    match buildProductMapOutcome (products.getD []) ProductMap.empty with
    | Outcome.panic msg => Outcome.panic msg
    | Outcome.returned productMap =>
      Outcome.returned (orderProducts.map (enrichOrderProduct productMap),
        [Event.getProducts productIDs])

/-- The customer part of `Present` over result pairs: with a `nil` error,
`customerData.ID` dereferences the returned pointer. -/
def presentCustomerOutcome (p : OrderPresenterPairs) (customerId : Nat) :
    Outcome (Option CustomerDto × List Event) :=
  if customerId ≠ 0 then
    match p.customerClient.GetCustomer customerId with
    | (_, some err) =>
      Outcome.returned (none, [Event.getCustomer customerId,
        Event.log ("failed to fetch customer " ++ toString customerId ++ ": " ++ err)])
    | (none, none) => Outcome.panic nilDereference
    | (some customerData, none) =>
      Outcome.returned (some { ID := customerData.ID
                               Name := customerData.Name
                               Email := customerData.Email
                               CPF := customerData.CPF },
        [Event.getCustomer customerId])
  else Outcome.returned (none, [])

/-- Method `OrderPresenterImpl.Present` over result pairs: the customer part runs
first, then `PresentProducts`; a panic of either ends the call. -/
def PresentOutcome (format : Time → String) (p : OrderPresenterPairs) (order : OrderEntity) :
    Outcome (GetOrderResponseDto × List Event) :=
  match presentCustomerOutcome p order.CustomerId with
  | Outcome.panic msg => Outcome.panic msg
  | Outcome.returned customer =>
    match PresentProductsOutcome p order.Products with
    | Outcome.panic msg => Outcome.panic msg
    | Outcome.returned products =>
      Outcome.returned
        ({ ID := order.ID
           CreatedAt := order.CreatedAt
           TotalAmount := order.TotalAmount
           CustomerId := order.CustomerId
           Customer := customer.1
           Products := products.1
           Status := PresentMultipleStatus format order.Status },
          customer.2 ++ products.2)

/-- The result pair of a call that returns either a value that is not `nil` and
no error, or `nil` and an error. -/
def asPair {α : Type} : Except String α → Option α × Option String
  | .ok value => (some value, none)
  | .error err => (none, some err)

/-- A presenter whose clients never return `nil` together with a `nil` error,
seen as a presenter over result pairs. -/
def OrderPresenterImpl.asPairs (p : OrderPresenterImpl) : OrderPresenterPairs :=
  { customerClient := { GetCustomer := fun customerID => asPair (p.customerClient.GetCustomer customerID) }
    productClient :=
      { GetProduct := fun productID => asPair (p.productClient.GetProduct productID)
        GetProducts := fun productIDs =>
          asPair ((p.productClient.GetProducts productIDs).map (fun products => products.map some))
        ValidateProduct := fun productID =>
          match p.productClient.ValidateProduct productID with
          | .ok valid => (valid, none)
          | .error err => (false, some err) } }

/-! ## Sample data -/

/-- A stand-in for `time.Time.Format(time.RFC3339)` in the examples. -/
def sampleFormat (t : Time) : String := toString t.unixNano

/-- A customer client whose call fails. -/
def failingCustomerClient : CustomerClient :=
  { GetCustomer := fun _ => .error "service unavailable" }

/-- A customer client whose call succeeds. -/
def johnCustomerClient : CustomerClient :=
  { GetCustomer := fun customerID =>
      .ok { ID := customerID, Name := "John Doe", CPF := 12345678901, Email := "john@example.com" } }

/-- A product client whose batch call returns the given result. -/
def stubProductClient (result : Except String (List ProductDTO)) : ProductClient :=
  { GetProduct := fun _ => .error "not stubbed"
    GetProducts := fun _ => result
    ValidateProduct := fun _ => .error "not stubbed" }

/-- The product with id 10 of the examples; its catalog price differs from the order line's. -/
def burger : ProductDTO :=
  { ID := 10, Name := "Burger", Description := "Cheese burger", Price := ⟨1106247680⟩,
    Category := 1, ImageLink := "burger.png" }

/-- Two order lines: product 10 and product 20. -/
def sampleLines : List OrderProductEntity :=
  [{ ID := 1, OrderId := 123, ProductId := 10, Price := ⟨1103888384⟩, Quantity := 2 },
   { ID := 2, OrderId := 123, ProductId := 20, Price := ⟨1092616192⟩, Quantity := 1 }]

/-- An order of customer 1 with the two sample lines and one status record. -/
def sampleOrder : OrderEntity :=
  { ID := 123, CreatedAt := ⟨1700000000⟩, TotalAmount := ⟨1114636288⟩, CustomerId := 1,
    Products := sampleLines,
    Status := [{ ID := 1, CreatedAt := ⟨1700000000⟩, CurrentStatus := 1, OrderId := 123 }] }

/-- An order without customer: `CustomerId` is the zero sentinel. -/
def anonymousOrder : OrderEntity :=
  { ID := 1, CreatedAt := ⟨1700000000⟩, TotalAmount := ⟨0⟩, CustomerId := 0,
    Products := [],
    Status := [{ ID := 1, CreatedAt := ⟨1700000000⟩, CurrentStatus := 1, OrderId := 1 }] }

/-- Presenter whose customer call fails and whose product call returns the burger only. -/
def degradedPresenter : OrderPresenterImpl :=
  { customerClient := failingCustomerClient, productClient := stubProductClient (.ok [burger]) }

/-- Presenter whose product call fails. -/
def noProductsPresenter : OrderPresenterImpl :=
  { customerClient := johnCustomerClient
    productClient := stubProductClient (.error "product service down") }

/-- A transport with the default configuration: 30 s timeout, 3 retries, 100 ms backoff. -/
def defaultClient : httpClientImpl := NewHTTPClient 30000000000 3 100000000

/-- A service that answers every attempt with HTTP 503. -/
def alwaysUnavailable : Nat → DoResult := fun _ => DoResult.resp 503 "unavailable"

/-- A service that answers every attempt with HTTP 404. -/
def alwaysNotFound : Nat → DoResult := fun _ => DoResult.resp 404 "not found"

/-- A service that refuses the connection on every attempt. -/
def alwaysRefused : Nat → DoResult := fun _ => DoResult.err "connection refused"

/-- A service that refuses the first three connections and answers the fourth with HTTP 503. -/
def refusedThenUnavailable : Nat → DoResult :=
  fun k => if k < 3 then DoResult.err "connection refused" else DoResult.resp 503 "unavailable"

/-- A service that answers the first attempt with HTTP 503 and the later ones with HTTP 200. -/
def unavailableThenOK : Nat → DoResult :=
  fun k => if k < 1 then DoResult.resp 503 "unavailable" else DoResult.resp 200 "payload"

/-- A decoder for the examples: the empty body cannot be decoded, any other body
decodes to its length. -/
def decodeLength (body : String) : Except String Nat :=
  if body = "" then .error "EOF" else .ok body.length

/-- A decoder for the examples that rejects every body. -/
def decodeNothing (_ : String) : Except String Nat := .error "unexpected end of JSON input"

/-- A cancellation signal that is already cancelled at the first attempt. -/
def cancelledContext : Context :=
  { done := fun _ => true, err := "context canceled" }

/-- A cancellation signal that is cancelled after the first attempt. -/
def cancelledAfterFirst : Context :=
  { done := fun k => decide (1 ≤ k), err := "context canceled" }

/-- The product that the example transport leaves in the target on its `k`-th
call: its id is `k` and its name is the URL of the call. -/
def echoProduct (k : Nat) (url : String) : ProductDTO :=
  { ID := k, Name := url, Description := "", Price := ⟨0⟩, Category := 0, ImageLink := "" }

/-- A product client over a transport whose every call succeeds. -/
def catalogClient : productClientImpl :=
  { httpClient := { Get := fun k url => .ok (echoProduct k url) }
    baseURL := "http://product-service" }

/-- A product client over a transport whose second call fails. -/
def secondFailsClient : productClientImpl :=
  { httpClient :=
      { Get := fun k url => if k = 1 then .error "product not found" else .ok (echoProduct k url) }
    baseURL := "http://product-service" }

/-- A product client over a transport that gives up with the error of a fourth
attempt answered 503. -/
def unavailableProductClient : productClientImpl :=
  { httpClient :=
      { Get := fun _ _ =>
          .error "HTTP request failed with status 503 (attempt 4/4): unavailable" }
    baseURL := "http://product-service" }

/-- A product client over a transport that returns the error of a first attempt
answered 404. -/
def notFoundProductClient : productClientImpl :=
  { httpClient := { Get := fun _ _ => .error (statusFailedError defaultClient 0 404 "not found") }
    baseURL := "http://product-service" }

/-- A customer client over a transport whose call fails. -/
def timeoutCustomerClient : customerClientImpl :=
  { httpClient := { Get := fun _ _ => .error "connection timeout" }
    baseURL := "http://customer-service" }

/-- A customer client over a transport whose call succeeds. -/
def reachableCustomerClient : customerClientImpl :=
  { httpClient :=
      { Get := fun _ _ =>
          .ok { ID := 456, Name := "John Doe", CPF := 12345678901, Email := "john@example.com" } }
    baseURL := "http://customer-service" }

/-- Three status records of order 123: codes 1, 9 and 4. -/
def sampleStatuses : List OrderStatusEntity :=
  [{ ID := 1, CreatedAt := ⟨1700000000⟩, CurrentStatus := 1, OrderId := 123 },
   { ID := 2, CreatedAt := ⟨1700000060⟩, CurrentStatus := 9, OrderId := 123 },
   { ID := 3, CreatedAt := ⟨1700000120⟩, CurrentStatus := 4, OrderId := 123 }]

/-- A second catalog entry with the id of the burger. -/
def veggieBurger : ProductDTO :=
  { ID := 10, Name := "Veggie burger", Description := "No meat", Price := ⟨1106247680⟩,
    Category := 2, ImageLink := "veggie.png" }

/-- A product with another id. -/
def juice : ProductDTO :=
  { ID := 20, Name := "Juice", Description := "Orange", Price := ⟨1090519040⟩,
    Category := 3, ImageLink := "juice.png" }

/-- Presenter whose product call returns two products with id 10 and then one with id 20. -/
def duplicatesPresenter : OrderPresenterImpl :=
  { customerClient := johnCustomerClient
    productClient := stubProductClient (.ok [burger, veggieBurger, juice]) }

/-- Two order lines that both name product 10. -/
def twinLines : List OrderProductEntity :=
  [{ ID := 1, OrderId := 123, ProductId := 10, Price := ⟨1103888384⟩, Quantity := 2 },
   { ID := 2, OrderId := 123, ProductId := 10, Price := ⟨1092616192⟩, Quantity := 1 }]

/-- An order repository that stores every order under the id 1. -/
def acceptingOrderRepository : OrderRepository :=
  { AddOrder := fun order => .ok { order with ID := 1 }
    GetOrder := fun _ => .error "record not found"
    GetOrders := .ok [] }

/-- An order repository whose insert fails. -/
def failingOrderRepository : OrderRepository :=
  { AddOrder := fun _ => .error "database connection error"
    GetOrder := fun _ => .error "record not found"
    GetOrders := .ok [] }

/-- An order-product repository that stores every line. -/
def acceptingOrderProductRepository : OrderProductRepository :=
  { AddOrderProduct := fun _ _ => none }

/-- An order-product repository whose second insert fails. -/
def secondLineFailsRepository : OrderProductRepository :=
  { AddOrderProduct := fun k _ => if k = 1 then some "product insert error" else none }

/-- A status repository that stores every record. -/
def acceptingOrderStatusRepository : OrderStatusRepository :=
  { AddOrderStatus := fun _ => none
    GetOrderStatus := fun _ => .error "record not found" }

/-- The use case over repositories that accept everything and a product service
that knows no product. -/
def unvalidatedUseCase : AddOrderUseCaseImpl :=
  { orderRepository := acceptingOrderRepository
    orderProductRepository := acceptingOrderProductRepository
    orderStatusRepository := acceptingOrderStatusRepository
    customerClient := johnCustomerClient
    productClient := stubProductClient (.ok []) }

/-- The use case when the second order line cannot be stored. -/
def secondLineFailsUseCase : AddOrderUseCaseImpl :=
  { orderRepository := acceptingOrderRepository
    orderProductRepository := secondLineFailsRepository
    orderStatusRepository := acceptingOrderStatusRepository
    customerClient := johnCustomerClient
    productClient := stubProductClient (.ok []) }

/-- The use case when the order cannot be stored. -/
def orderFailsUseCase : AddOrderUseCaseImpl :=
  { orderRepository := failingOrderRepository
    orderProductRepository := acceptingOrderProductRepository
    orderStatusRepository := acceptingOrderStatusRepository
    customerClient := johnCustomerClient
    productClient := stubProductClient (.ok []) }

/-- A command of customer 1 for one unit of product 999. -/
def unknownProductCommand : AddOrderCommand :=
  NewAddOrderCommand 1 ⟨1103888384⟩ [{ ProductId := 999, Quantity := 1, Price := ⟨1103888384⟩ }]

/-- A command of customer 5 with three lines. -/
def threeLinesCommand : AddOrderCommand :=
  NewAddOrderCommand 5 ⟨1124859904⟩
    [{ ProductId := 10, Quantity := 1, Price := ⟨1092616192⟩ },
     { ProductId := 20, Quantity := 2, Price := ⟨1101004800⟩ },
     { ProductId := 30, Quantity := 3, Price := ⟨1106247680⟩ }]

/-- The status use case over a repository that stores every record. -/
def acceptingStatusUseCase : UpdateOrderStatusUseCaseImpl :=
  { orderStatusRepository := acceptingOrderStatusRepository }

/-- The controller over the use case implementation with accepting repositories. -/
def sampleController : OrderControllerImpl :=
  { addOrderUseCase := unvalidatedUseCase.asUseCase }

/-- A transport configured with a negative retry count. -/
def negativeRetriesClient : httpClientImpl := NewHTTPClient 30000000000 (-1) 100000000

/-- A service that refuses two connections, answers 503 once and then answers 200. -/
def recoversAtFourth : Nat → DoResult :=
  fun k =>
    if k < 2 then DoResult.err "connection refused"
    else if k < 3 then DoResult.resp 503 "unavailable"
    else DoResult.resp 200 "payload"

/-- A customer client that returns `nil` and no error. -/
def nilCustomerClient : CustomerClientPairs :=
  { GetCustomer := fun _ => (none, none) }

/-- A customer client over result pairs whose call fails. -/
def failingCustomerPairs : CustomerClientPairs :=
  { GetCustomer := fun _ => (none, some "service unavailable") }

/-- A product client over result pairs whose batch call returns the given pair. -/
def stubProductPairs (result : Option (List (Option ProductDTO)) × Option String) :
    ProductClientPairs :=
  { GetProduct := fun _ => (none, some "not stubbed")
    GetProducts := fun _ => result
    ValidateProduct := fun _ => (false, some "not stubbed") }

/-- Presenter whose customer call returns `nil` and no error. -/
def nilCustomerPresenter : OrderPresenterPairs :=
  { customerClient := nilCustomerClient, productClient := stubProductPairs (some [some burger], none) }

/-- Presenter whose product call returns a slice with a `nil` entry and no error. -/
def nilEntryPresenter : OrderPresenterPairs :=
  { customerClient := failingCustomerPairs
    productClient := stubProductPairs (some [some burger, none], none) }

/-- Presenter whose two remote calls both fail. -/
def allFailingPresenter : OrderPresenterPairs :=
  { customerClient := failingCustomerPairs
    productClient := stubProductPairs (none, some "product service down") }

/-! ## Lemmas on the presenter -/

theorem foldl_insert_some (products : List ProductDTO) (m : ProductMap) (k : Nat)
    (v : ProductDTO)
    (hv : products.foldl (fun m product => m.insert product.ID product) m k = some v) :
    (v ∈ products ∧ v.ID = k) ∨ m k = some v := by
  induction products generalizing m with
  | nil => exact Or.inr hv
  | cons a rest ih =>
    rw [List.foldl_cons] at hv
    rcases ih _ hv with h | h
    · exact Or.inl ⟨List.mem_cons_of_mem _ h.1, h.2⟩
    · unfold ProductMap.insert at h
      by_cases hk : k = a.ID
      · rw [if_pos hk] at h
        have hav : a = v := Option.some.inj h
        subst hav
        exact Or.inl ⟨List.mem_cons_self _ _, hk.symm⟩
      · rw [if_neg hk] at h
        exact Or.inr h

theorem foldl_insert_none (products : List ProductDTO) (m : ProductMap) (k : Nat)
    (hv : products.foldl (fun m product => m.insert product.ID product) m k = none) :
    m k = none ∧ ∀ product ∈ products, product.ID ≠ k := by
  induction products generalizing m with
  | nil => exact ⟨hv, fun _ h => absurd h (List.not_mem_nil _)⟩
  | cons a rest ih =>
    rw [List.foldl_cons] at hv
    obtain ⟨h1, h2⟩ := ih _ hv
    unfold ProductMap.insert at h1
    by_cases hk : k = a.ID
    · rw [if_pos hk] at h1
      exact absurd h1 (by simp)
    · rw [if_neg hk] at h1
      refine ⟨h1, ?_⟩
      intro product hmem
      rcases List.mem_cons.mp hmem with h | h
      · subst h
        exact fun hEq => hk hEq.symm
      · exact h2 product h

theorem buildProductMap_some (products : List ProductDTO) (k : Nat) (v : ProductDTO)
    (hv : buildProductMap products k = some v) : v ∈ products ∧ v.ID = k := by
  rcases foldl_insert_some products ProductMap.empty k v hv with h | h
  · exact h
  · simp [ProductMap.empty] at h

theorem buildProductMap_none (products : List ProductDTO) (k : Nat)
    (hv : buildProductMap products k = none) : ∀ product ∈ products, product.ID ≠ k :=
  (foldl_insert_none products ProductMap.empty k hv).2

theorem localFields_basic (orderProduct : OrderProductEntity) :
    localFields (basicOrderProductDto orderProduct) = lineFields orderProduct := rfl

theorem localFields_enrich (m : ProductMap) (orderProduct : OrderProductEntity) :
    localFields (enrichOrderProduct m orderProduct) = lineFields orderProduct := by
  unfold enrichOrderProduct
  cases m orderProduct.ProductId <;> rfl

theorem PresentProducts_of_error (p : OrderPresenterImpl)
    (orderProducts : List OrderProductEntity) (e : String)
    (herr : p.productClient.GetProducts (orderProducts.map fun o => o.ProductId) = .error e) :
    PresentProducts p orderProducts =
      (orderProducts.map basicOrderProductDto,
        [Event.getProducts (orderProducts.map fun o => o.ProductId),
          Event.log ("failed to fetch products: " ++ e)]) := by
  simp only [PresentProducts, herr]

theorem PresentProducts_of_ok (p : OrderPresenterImpl)
    (orderProducts : List OrderProductEntity) (products : List ProductDTO)
    (hok : p.productClient.GetProducts (orderProducts.map fun o => o.ProductId) = .ok products) :
    PresentProducts p orderProducts =
      (orderProducts.map (enrichOrderProduct (buildProductMap products)),
        [Event.getProducts (orderProducts.map fun o => o.ProductId)]) := by
  simp only [PresentProducts, hok]

theorem PresentProducts_lines (p : OrderPresenterImpl) (orderProducts : List OrderProductEntity) :
    (PresentProducts p orderProducts).1.map localFields = orderProducts.map lineFields := by
  cases hres : p.productClient.GetProducts (orderProducts.map fun o => o.ProductId) with
  | error e =>
    rw [PresentProducts_of_error p orderProducts e hres]
    simp only [List.map_map]
    exact List.map_congr_left (fun o _ => localFields_basic o)
  | ok products =>
    rw [PresentProducts_of_ok p orderProducts products hres]
    simp only [List.map_map]
    exact List.map_congr_left (fun o _ => localFields_enrich _ o)

theorem PresentProducts_length (p : OrderPresenterImpl)
    (orderProducts : List OrderProductEntity) :
    (PresentProducts p orderProducts).1.length = orderProducts.length := by
  have h := congrArg List.length (PresentProducts_lines p orderProducts)
  simpa using h

theorem presentCustomer_zero (p : OrderPresenterImpl) : presentCustomer p 0 = (none, []) := by
  simp [presentCustomer]

theorem presentCustomer_of_error (p : OrderPresenterImpl) (customerId : Nat) (e : String)
    (hid : customerId ≠ 0) (herr : p.customerClient.GetCustomer customerId = .error e) :
    presentCustomer p customerId =
      (none, [Event.getCustomer customerId,
        Event.log ("failed to fetch customer " ++ toString customerId ++ ": " ++ e)]) := by
  unfold presentCustomer
  rw [if_pos hid, herr]

theorem PresentProducts_events (p : OrderPresenterImpl)
    (orderProducts : List OrderProductEntity) :
    (PresentProducts p orderProducts).2.filter isGetProductsCall =
        [Event.getProducts (orderProducts.map fun o => o.ProductId)] ∧
      (PresentProducts p orderProducts).2.filter isGetCustomerCall = [] := by
  cases hres : p.productClient.GetProducts (orderProducts.map fun o => o.ProductId) with
  | error e =>
    rw [PresentProducts_of_error p orderProducts e hres]
    exact ⟨rfl, rfl⟩
  | ok products =>
    rw [PresentProducts_of_ok p orderProducts products hres]
    exact ⟨rfl, rfl⟩

/-! ## Enrichment pipeline: the claims -/

theorem buildProductMapOutcome_of_no_nil (entries : List (Option ProductDTO)) :
    ∀ productMap : ProductMap, (∀ entry ∈ entries, entry ≠ none) →
      ∃ built, buildProductMapOutcome entries productMap = Outcome.returned built := by
  induction entries with
  | nil =>
    intro productMap _
    exact ⟨productMap, rfl⟩
  | cons entry rest ih =>
    intro productMap hall
    cases entry with
    | none => exact absurd rfl (hall none (List.mem_cons_self _ _))
    | some product =>
      exact ih _ (fun e he => hall e (List.mem_cons_of_mem _ he))

theorem buildProductMapOutcome_map_some (products : List ProductDTO) :
    ∀ productMap : ProductMap,
      buildProductMapOutcome (products.map some) productMap =
        Outcome.returned
          (products.foldl (fun m product => m.insert product.ID product) productMap) := by
  induction products with
  | nil =>
    intro productMap
    rfl
  | cons product rest ih =>
    intro productMap
    simp only [List.map_cons, buildProductMapOutcome, ih, List.foldl_cons]

/-- The customer part returns unless the client hands over `nil` with no error,
and on an error it leaves the customer unset. -/
theorem presentCustomerOutcome_returns (p : OrderPresenterPairs) (customerId : Nat)
    (hcustomer : customerId ≠ 0 → (p.customerClient.GetCustomer customerId).2 = none →
      (p.customerClient.GetCustomer customerId).1 ≠ none) :
    ∃ customer events, presentCustomerOutcome p customerId = Outcome.returned (customer, events) ∧
      ((p.customerClient.GetCustomer customerId).2 ≠ none → customer = none) := by
  by_cases hid : customerId ≠ 0
  · cases hres : p.customerClient.GetCustomer customerId with
    | mk pointer err =>
      rw [hres] at hcustomer
      cases err with
      | some e =>
        cases pointer <;>
          exact ⟨none, _, by rw [presentCustomerOutcome, if_pos hid, hres], fun _ => rfl⟩
      | none =>
        cases pointer with
        | none => exact absurd rfl (hcustomer hid rfl)
        | some customerData =>
          exact ⟨_, _, by rw [presentCustomerOutcome, if_pos hid, hres], fun h => absurd rfl h⟩
  · exact ⟨none, [], by rw [presentCustomerOutcome, if_neg hid], fun _ => rfl⟩

/-- The product part returns unless the client hands over a slice with a `nil`
entry and no error; it keeps one line per order line, and on an error the lines
hold their local fields only. -/
theorem PresentProductsOutcome_returns (p : OrderPresenterPairs)
    (orderProducts : List OrderProductEntity)
    (hproducts : (p.productClient.GetProducts (orderProducts.map fun o => o.ProductId)).2 = none →
      ∀ entry ∈ ((p.productClient.GetProducts (orderProducts.map fun o => o.ProductId)).1).getD [],
        entry ≠ none) :
    ∃ lines events, PresentProductsOutcome p orderProducts = Outcome.returned (lines, events) ∧
      lines.length = orderProducts.length ∧
      lines.map localFields = orderProducts.map lineFields ∧
      ((p.productClient.GetProducts (orderProducts.map fun o => o.ProductId)).2 ≠ none →
        lines = orderProducts.map basicOrderProductDto) := by
  cases hres : p.productClient.GetProducts (orderProducts.map fun o => o.ProductId) with
  | mk products err =>
    rw [hres] at hproducts
    cases err with
    | some e =>
      refine ⟨orderProducts.map basicOrderProductDto, _,
        by simp only [PresentProductsOutcome, hres]; rfl, by simp, ?_, fun _ => rfl⟩
      simp only [List.map_map]
      exact List.map_congr_left (fun o _ => localFields_basic o)
    | none =>
      obtain ⟨built, hbuilt⟩ :=
        buildProductMapOutcome_of_no_nil (products.getD []) ProductMap.empty (hproducts rfl)
      refine ⟨orderProducts.map (enrichOrderProduct built), _,
        by simp only [PresentProductsOutcome, hres, hbuilt]; rfl, by simp, ?_,
        fun h => absurd rfl h⟩
      simp only [List.map_map]
      exact List.map_congr_left (fun o _ => localFields_enrich _ o)

/-- Over clients that never return `nil` together with a `nil` error, the
presenter over result pairs returns what `Present` computes. -/
theorem PresentOutcome_asPairs (format : Time → String) (p : OrderPresenterImpl)
    (order : OrderEntity) :
    PresentOutcome format p.asPairs order = Outcome.returned (Present format p order) := by
  have hcustomer : presentCustomerOutcome p.asPairs order.CustomerId =
      Outcome.returned (presentCustomer p order.CustomerId) := by
    unfold presentCustomerOutcome presentCustomer
    by_cases hid : order.CustomerId ≠ 0
    · rw [if_pos hid, if_pos hid]
      cases hres : p.customerClient.GetCustomer order.CustomerId <;>
        simp only [OrderPresenterImpl.asPairs, hres, asPair]
    · rw [if_neg hid, if_neg hid]
  have hproducts : PresentProductsOutcome p.asPairs order.Products =
      Outcome.returned (PresentProducts p order.Products) := by
    unfold PresentProductsOutcome PresentProducts
    cases hres : p.productClient.GetProducts (order.Products.map fun o => o.ProductId) with
    | error e => simp only [OrderPresenterImpl.asPairs, hres, asPair, Except.map]
    | ok products =>
      simp only [OrderPresenterImpl.asPairs, hres, asPair, Except.map, Option.getD_some,
        buildProductMapOutcome_map_some, buildProductMap]
  simp only [PresentOutcome, hcustomer, hproducts, Present]

/-- C1, the claim as stated fails: the client interfaces can hand over a `nil`
result together with a `nil` error, and `Present` then does not return a view.
With a customer client that returns `nil` and no error, `customerData.ID` panics;
with a product client that returns a slice with a `nil` entry and no error,
`product.ID` panics. -/
theorem Present_nil_result_counterexample :
    (nilCustomerPresenter.customerClient.GetCustomer sampleOrder.CustomerId = (none, none) ∧
      PresentOutcome sampleFormat nilCustomerPresenter sampleOrder =
        Outcome.panic "runtime error: invalid memory address or nil pointer dereference") ∧
    (nilEntryPresenter.productClient.GetProducts (sampleOrder.Products.map fun o => o.ProductId) =
        (some [some burger, none], none) ∧
      PresentOutcome sampleFormat nilEntryPresenter sampleOrder =
        Outcome.panic "runtime error: invalid memory address or nil pointer dereference") := by
  decide

/-- C1, amended: for every order, and for every outcome of the customer client and
of the product client that is an error (whatever comes with it) or a success
without `nil` pointer (a customer that is not `nil`, a product slice without `nil`
entry), `Present` returns a response view and no error: the view carries the
order's id, creation time, total amount and customer id, one output line per order
line with the line's own fields, and one status entry per status record; a failed
customer call leaves `Customer` unset and a failed product call leaves the lines
with their local fields only. -/
theorem PresentOutcome_returns_view (format : Time → String) (p : OrderPresenterPairs)
    (order : OrderEntity)
    (hcustomer : order.CustomerId ≠ 0 →
      (p.customerClient.GetCustomer order.CustomerId).2 = none →
      (p.customerClient.GetCustomer order.CustomerId).1 ≠ none)
    (hproducts : (p.productClient.GetProducts (order.Products.map fun o => o.ProductId)).2 = none →
      ∀ entry ∈ ((p.productClient.GetProducts (order.Products.map fun o => o.ProductId)).1).getD [],
        entry ≠ none) :
    ∃ view events, PresentOutcome format p order = Outcome.returned (view, events) ∧
      view.ID = order.ID ∧ view.CreatedAt = order.CreatedAt ∧
      view.TotalAmount = order.TotalAmount ∧ view.CustomerId = order.CustomerId ∧
      view.Products.length = order.Products.length ∧
      view.Products.map localFields = order.Products.map lineFields ∧
      view.Status = PresentMultipleStatus format order.Status ∧
      view.Status.length = order.Status.length ∧
      ((p.customerClient.GetCustomer order.CustomerId).2 ≠ none → view.Customer = none) ∧
      ((p.productClient.GetProducts (order.Products.map fun o => o.ProductId)).2 ≠ none →
        view.Products = order.Products.map basicOrderProductDto) := by
  obtain ⟨customer, customerEvents, hc, hcnone⟩ :=
    presentCustomerOutcome_returns p order.CustomerId hcustomer
  obtain ⟨lines, lineEvents, hl, hlen, hlocal, hbasic⟩ :=
    PresentProductsOutcome_returns p order.Products hproducts
  refine ⟨_, _, by simp only [PresentOutcome, hc, hl]; rfl, rfl, rfl, rfl, rfl, hlen, hlocal, rfl,
    by simp [PresentMultipleStatus], hcnone, hbasic⟩

/-- C1 amended, on the sample order when both remote calls fail: `Present` returns
the view, with `Customer` unset and the two lines with their local fields only. -/
theorem PresentOutcome_returns_view_witness :
    ((allFailingPresenter.customerClient.GetCustomer sampleOrder.CustomerId).2 =
        some "service unavailable" ∧
      (allFailingPresenter.productClient.GetProducts
        (sampleOrder.Products.map fun o => o.ProductId)).2 = some "product service down") ∧
    ∃ view events,
      PresentOutcome sampleFormat allFailingPresenter sampleOrder =
        Outcome.returned (view, events) ∧
      view.ID = sampleOrder.ID ∧ view.Customer = none ∧
      view.Products = sampleOrder.Products.map basicOrderProductDto ∧
      view.Status.length = sampleOrder.Status.length :=
  ⟨⟨rfl, rfl⟩,
    match PresentOutcome_returns_view sampleFormat allFailingPresenter sampleOrder
        (fun _ h => absurd h (by decide)) (fun h => absurd h (by decide)) with
    | ⟨view, events, hrun, hid, _, _, _, _, _, _, hstatus, hcnone, hbasic⟩ =>
      ⟨view, events, hrun, hid, hcnone (by decide), hbasic (by decide), hstatus⟩⟩

/-- C2: when the order has a customer id other than 0 and `GetCustomer` returns an
error, the view has no `Customer`, and its other fields are those built from the
order alone: they are the fields of the view of the same order presented without
customer (customer id 0, no fetch attempted), the customer id apart, and they are
the same for every other customer client, so they do not depend on the outcome of
the customer fetch. -/
theorem Present_customer_failure_frame (format : Time → String) (p : OrderPresenterImpl)
    (order : OrderEntity) (e : String) (hid : order.CustomerId ≠ 0)
    (herr : p.customerClient.GetCustomer order.CustomerId = .error e) :
    (Present format p order).1 =
        { ID := order.ID
          CreatedAt := order.CreatedAt
          TotalAmount := order.TotalAmount
          CustomerId := order.CustomerId
          Customer := none
          Products := (PresentProducts p order.Products).1
          Status := PresentMultipleStatus format order.Status } ∧
      { (Present format p { order with CustomerId := 0 }).1
          with CustomerId := order.CustomerId } = (Present format p order).1 ∧
      ∀ other : CustomerClient,
        { (Present format { customerClient := other, productClient := p.productClient } order).1
            with Customer := none } = (Present format p order).1 := by
  have hc := presentCustomer_of_error p order.CustomerId e hid herr
  have hview : (Present format p order).1 =
      { ID := order.ID
        CreatedAt := order.CreatedAt
        TotalAmount := order.TotalAmount
        CustomerId := order.CustomerId
        Customer := none
        Products := (PresentProducts p order.Products).1
        Status := PresentMultipleStatus format order.Status } := by
    simp only [Present, hc]
  refine ⟨hview, ?_, ?_⟩
  · rw [hview]
    simp only [Present, presentCustomer_zero]
  · intro other
    rw [hview]
    rfl

/-- C2, on the sample order with a failing customer client. -/
theorem Present_customer_failure_frame_witness :
    (sampleOrder.CustomerId ≠ 0 ∧
      degradedPresenter.customerClient.GetCustomer sampleOrder.CustomerId =
        .error "service unavailable") ∧
    (Present sampleFormat degradedPresenter sampleOrder).1.Customer = none ∧
    { (Present sampleFormat
          { customerClient := johnCustomerClient
            productClient := degradedPresenter.productClient } sampleOrder).1
        with Customer := none } = (Present sampleFormat degradedPresenter sampleOrder).1 :=
  ⟨⟨by decide, rfl⟩,
    congrArg GetOrderResponseDto.Customer
      (Present_customer_failure_frame sampleFormat degradedPresenter sampleOrder
        "service unavailable" (by decide) rfl).1,
    (Present_customer_failure_frame sampleFormat degradedPresenter sampleOrder
      "service unavailable" (by decide) rfl).2.2 johnCustomerClient⟩

/-- C3: when the order's customer id is 0, the effects of `Present` contain no call
of `GetCustomer` and the view has no `Customer`. -/
theorem Present_without_customer (format : Time → String) (p : OrderPresenterImpl)
    (order : OrderEntity) (hid : order.CustomerId = 0) :
    (Present format p order).2.filter isGetCustomerCall = [] ∧
      (∀ customerID, Event.getCustomer customerID ∉ (Present format p order).2) ∧
      (Present format p order).1.Customer = none := by
  have hc : presentCustomer p order.CustomerId = (none, []) := by
    rw [hid]
    exact presentCustomer_zero p
  have hev : (Present format p order).2 = (PresentProducts p order.Products).2 := by
    simp only [Present, hc, List.nil_append]
  have hfilter := (PresentProducts_events p order.Products).2
  refine ⟨by rw [hev]; exact hfilter, ?_, by simp only [Present, hc]⟩
  intro customerID hmem
  rw [hev] at hmem
  have hin : Event.getCustomer customerID ∈
      (PresentProducts p order.Products).2.filter isGetCustomerCall :=
    List.mem_filter.mpr ⟨hmem, rfl⟩
  rw [hfilter] at hin
  exact absurd hin (List.not_mem_nil _)

/-- C3, on the order without customer, with a customer client that would succeed. -/
theorem Present_without_customer_witness :
    anonymousOrder.CustomerId = 0 ∧
    (Present sampleFormat noProductsPresenter anonymousOrder).2.filter isGetCustomerCall = [] ∧
    (Present sampleFormat noProductsPresenter anonymousOrder).1.Customer = none :=
  ⟨rfl,
    (Present_without_customer sampleFormat noProductsPresenter anonymousOrder rfl).1,
    (Present_without_customer sampleFormat noProductsPresenter anonymousOrder rfl).2.2⟩

/-- C4: for every list of order lines and every product client (whatever its batch
call returns), `PresentProducts` returns as many output lines as there are order
lines, and output line `i` has the product id, price and quantity of order line
`i`: the price is the one stored in the order line. -/
theorem PresentProducts_keeps_lines (p : OrderPresenterImpl)
    (orderProducts : List OrderProductEntity) :
    (PresentProducts p orderProducts).1.length = orderProducts.length ∧
      ∀ i : Nat, ((PresentProducts p orderProducts).1[i]?).map localFields =
        (orderProducts[i]?).map lineFields := by
  refine ⟨PresentProducts_length p orderProducts, ?_⟩
  intro i
  rw [← List.getElem?_map, ← List.getElem?_map, PresentProducts_lines]

/-- C5: when the batch call `GetProducts` returns an error, every output line of
`PresentProducts` is the order line's product id, price and quantity with the
name, description, category and image all empty; the same holds for the lines of
the view returned by `Present`. -/
theorem PresentProducts_batch_failure (format : Time → String) (p : OrderPresenterImpl)
    (order : OrderEntity) (e : String)
    (herr : p.productClient.GetProducts (order.Products.map fun o => o.ProductId) = .error e) :
    (PresentProducts p order.Products).1 = order.Products.map basicOrderProductDto ∧
      (Present format p order).1.Products = order.Products.map basicOrderProductDto ∧
      (∀ i : Nat, ((Present format p order).1.Products[i]?).map localFields =
        (order.Products[i]?).map lineFields) ∧
      ∀ d ∈ (Present format p order).1.Products, enrichmentEmpty d := by
  have hp := PresentProducts_of_error p order.Products e herr
  have hout : (Present format p order).1.Products = order.Products.map basicOrderProductDto := by
    simp only [Present, hp]
  refine ⟨by rw [hp], hout, ?_, ?_⟩
  · intro i
    rw [hout, List.getElem?_map, Option.map_map]
    rfl
  · intro d hd
    rw [hout] at hd
    obtain ⟨o, _, ho⟩ := List.mem_map.mp hd
    subst ho
    exact ⟨rfl, rfl, rfl, rfl⟩

/-- C5, on the sample order with a failing product client. -/
theorem PresentProducts_batch_failure_witness :
    noProductsPresenter.productClient.GetProducts
        (sampleOrder.Products.map fun o => o.ProductId) = .error "product service down" ∧
    (Present sampleFormat noProductsPresenter sampleOrder).1.Products =
      sampleOrder.Products.map basicOrderProductDto ∧
    ∀ d ∈ (Present sampleFormat noProductsPresenter sampleOrder).1.Products, enrichmentEmpty d :=
  ⟨rfl,
    (PresentProducts_batch_failure sampleFormat noProductsPresenter sampleOrder
      "product service down" rfl).2.1,
    (PresentProducts_batch_failure sampleFormat noProductsPresenter sampleOrder
      "product service down" rfl).2.2.2⟩

/-- C6: when the batch call `GetProducts` succeeds with a list of products,
whatever its length and content, there is one output line per order line, each
computed from its own order line and the returned products only; output line `i`
keeps the local fields of order line `i` and carries the name, description,
category and image of a returned product with the line's product id when one was
returned, and otherwise has the four enrichment fields empty. -/
theorem PresentProducts_partial_enrichment (p : OrderPresenterImpl)
    (orderProducts : List OrderProductEntity) (products : List ProductDTO)
    (hok : p.productClient.GetProducts (orderProducts.map fun o => o.ProductId) = .ok products) :
    (PresentProducts p orderProducts).1 =
        orderProducts.map (enrichOrderProduct (buildProductMap products)) ∧
      ∀ (i : Nat) (line : OrderProductEntity), orderProducts[i]? = some line →
        ∃ d, (PresentProducts p orderProducts).1[i]? = some d ∧
          localFields d = lineFields line ∧
          ((∃ product ∈ products, product.ID = line.ProductId ∧ enrichedFrom product d) ∨
            ((∀ product ∈ products, product.ID ≠ line.ProductId) ∧ enrichmentEmpty d)) := by
  have hp := PresentProducts_of_ok p orderProducts products hok
  refine ⟨by rw [hp], ?_⟩
  intro i line hline
  refine ⟨enrichOrderProduct (buildProductMap products) line, ?_,
    localFields_enrich _ line, ?_⟩
  · rw [hp]
    simp only [List.getElem?_map, hline, Option.map_some']
  · cases hm : buildProductMap products line.ProductId with
    | none =>
      refine Or.inr ⟨buildProductMap_none products line.ProductId hm, ?_⟩
      simp only [enrichOrderProduct, hm]
      exact ⟨rfl, rfl, rfl, rfl⟩
    | some product =>
      obtain ⟨hmem, hID⟩ := buildProductMap_some products line.ProductId product hm
      refine Or.inl ⟨product, hmem, hID, ?_⟩
      simp only [enrichOrderProduct, hm]
      exact ⟨rfl, rfl, rfl, rfl⟩

/-- C6, on the two sample lines when only product 10 is returned: the line of
product 10 is enriched, the line of product 20 keeps its local fields only. -/
theorem PresentProducts_partial_enrichment_witness :
    degradedPresenter.productClient.GetProducts (sampleLines.map fun o => o.ProductId) =
        .ok [burger] ∧
    (PresentProducts degradedPresenter sampleLines).1 =
      [{ ProductId := 10, Price := ⟨1103888384⟩, Quantity := 2, Name := "Burger",
         Description := "Cheese burger", Category := 1, ImageLink := "burger.png" },
       { ProductId := 20, Price := ⟨1092616192⟩, Quantity := 1, Name := "",
         Description := "", Category := 0, ImageLink := "" }] :=
  ⟨rfl,
    (PresentProducts_partial_enrichment degradedPresenter sampleLines [burger] rfl).1.trans
      (by decide)⟩

/-- C7: for every list of order lines, the effects of `PresentProducts` contain
exactly one call of `GetProducts`, and its argument is the list of the lines'
product ids, in line order, one id per line (duplicates are kept). -/
theorem PresentProducts_single_batch_call (p : OrderPresenterImpl)
    (orderProducts : List OrderProductEntity) :
    (PresentProducts p orderProducts).2.filter isGetProductsCall =
        [Event.getProducts (orderProducts.map fun o => o.ProductId)] ∧
      (orderProducts.map fun o => o.ProductId).length = orderProducts.length ∧
      ∀ i : Nat, (orderProducts.map fun o => o.ProductId)[i]? =
        (orderProducts[i]?).map fun o => o.ProductId :=
  ⟨(PresentProducts_events p orderProducts).1, List.length_map _ _,
    fun _ => List.getElem?_map _ _ _⟩

/-! ## Lemmas on the transport -/

theorem toInt64_of_isInt64 (x : Int) (hx : isInt64 x) : toInt64 x = x := by
  unfold isInt64 at hx
  unfold toInt64
  omega

theorem isInt64_toInt64 (x : Int) : isInt64 (toInt64 x) := by
  unfold isInt64 toInt64
  omega

theorem toInt64_succ_cast (a : Nat) (ha : (a : Int) < 2 ^ 63 - 1) :
    toInt64 ((a : Int) + 1) = ((a + 1 : Nat) : Int) := by
  rw [toInt64_of_isInt64]
  · push_cast
    rfl
  · unfold isInt64
    omega

theorem Run.after_after {α : Type} (e1 e2 : List TransportEvent) (r : Run α) :
    Run.after e1 (Run.after e2 r) = Run.after (e1 ++ e2) r := by
  simp [Run.after, List.append_assoc]

theorem Run.map_after_after {α : Type} (e1 e2 : List TransportEvent) (r : Option (Run α)) :
    (r.map (Run.after e2)).map (Run.after e1) = r.map (Run.after (e1 ++ e2)) := by
  cases r with
  | none => rfl
  | some r => simp [Run.after_after]

/-- One iteration of the loop whose attempt fails retryably: the loop goes on
with the next attempt and the error of this one in `lastErr`. -/
theorem doWithRetryLoop_retry_step {α : Type} (h : httpClientImpl) (Do : Nat → DoResult)
    (response : Option (String → Except String α)) (fuel a : Nat) (lastErr : Option String)
    (hle : (a : Int) ≤ h.retries) (ha : (a : Int) < 2 ^ 63 - 1)
    (hretry : retryable (Do a) = true) :
    doWithRetryLoop h Do response (fuel + 1) (a : Int) a lastErr =
      (doWithRetryLoop h Do response fuel ((a + 1 : Nat) : Int) (a + 1)
        (some (attemptError h (a : Int) (Do a)))).map
          (Run.after (sleepBefore h (a : Int) ++ [TransportEvent.request])) := by
  rw [doWithRetryLoop, if_pos hle]
  cases hDo : Do a with
  | err e =>
    simp only [attemptError]
    rw [toInt64_succ_cast a ha]
  | resp StatusCode body =>
    rw [hDo] at hretry
    simp only [retryable, Bool.and_eq_true, Bool.or_eq_true, decide_eq_true_eq,
      Bool.not_eq_true', Bool.and_eq_false_imp] at hretry
    have h1 : StatusCode < 200 ∨ StatusCode ≥ 300 := hretry.1
    have h2 : ¬ (StatusCode ≥ 400 ∧ StatusCode < 500) := by
      intro hc
      have := hretry.2 hc.1
      simp at this
      omega
    simp only [attemptError]
    rw [if_pos h1, if_neg h2, toInt64_succ_cast a ha]

theorem lastErrAfter_succ (h : httpClientImpl) (Do : Nat → DoResult) (a m : Nat)
    (lastErr : Option String) :
    lastErrAfter h Do (a + 1) m (some (attemptError h (a : Int) (Do a))) =
      lastErrAfter h Do a (m + 1) lastErr := by
  cases m with
  | zero => rfl
  | succ m =>
    have hidx : a + 1 + m = a + (m + 1) := by omega
    simp only [lastErrAfter, hidx]

/-- A run of `m` iterations whose attempts all fail retryably: the loop reaches
attempt `a + m` with their effects behind it. -/
theorem doWithRetryLoop_retry_run {α : Type} (h : httpClientImpl) (Do : Nat → DoResult)
    (response : Option (String → Except String α)) (fuel : Nat) :
    ∀ (m a : Nat) (lastErr : Option String),
      (∀ k, a ≤ k → k < a + m →
        (k : Int) ≤ h.retries ∧ (k : Int) < 2 ^ 63 - 1 ∧ retryable (Do k) = true) →
      doWithRetryLoop h Do response (fuel + m) (a : Int) a lastErr =
        (doWithRetryLoop h Do response fuel ((a + m : Nat) : Int) (a + m)
          (lastErrAfter h Do a m lastErr)).map (Run.after (attemptEvents h a m)) := by
  intro m
  induction m with
  | zero =>
    intro a lastErr _
    cases hres : doWithRetryLoop h Do response fuel ((a : Nat) : Int) a lastErr with
    | none => simp [lastErrAfter, hres]
    | some r => simp [lastErrAfter, hres, attemptEvents, Run.after]
  | succ m ih =>
    intro a lastErr hall
    obtain ⟨hle, ha, hretry⟩ := hall a (Nat.le_refl a) (by omega)
    have hstep := doWithRetryLoop_retry_step h Do response (fuel + m) a lastErr hle ha hretry
    have hrest := ih (a + 1) (some (attemptError h (a : Int) (Do a)))
      (fun k hk1 hk2 => hall k (by omega) (by omega))
    have hfuel : fuel + (m + 1) = fuel + m + 1 := by omega
    have hidx : a + 1 + m = a + (m + 1) := by omega
    rw [hfuel, hstep, hrest, Run.map_after_after, lastErrAfter_succ h Do a m lastErr, hidx]
    simp only [attemptEvents, List.append_assoc]

theorem attemptEvents_snoc (h : httpClientImpl) (m a : Nat) :
    attemptEvents h a (m + 1) =
      attemptEvents h a m ++ (sleepBefore h ((a + m : Nat) : Int) ++ [TransportEvent.request]) := by
  induction m generalizing a with
  | zero => simp [attemptEvents]
  | succ m ih =>
    have hidx : a + 1 + m = a + (m + 1) := by omega
    rw [attemptEvents, ih (a + 1), hidx]
    simp only [attemptEvents, List.append_assoc]

theorem requestCount_append (t1 t2 : List TransportEvent) :
    requestCount (t1 ++ t2) = requestCount t1 + requestCount t2 := by
  simp [requestCount, List.filter_append]

theorem requestCount_sleepBefore (h : httpClientImpl) (attempt : Int) :
    requestCount (sleepBefore h attempt ++ [TransportEvent.request]) = 1 := by
  unfold sleepBefore
  split <;> simp [requestCount]

theorem requestCount_attemptEvents (h : httpClientImpl) (m a : Nat) :
    requestCount (attemptEvents h a m) = m := by
  induction m generalizing a with
  | zero => rfl
  | succ m ih =>
    rw [attemptEvents, requestCount_append, requestCount_sleepBefore, ih]
    omega

theorem getLast?_attemptEvents (h : httpClientImpl) (m a : Nat) :
    (attemptEvents h a (m + 1)).getLast? = some TransportEvent.request := by
  rw [attemptEvents_snoc, ← List.append_assoc, List.getLast?_append]
  rfl

theorem toInt64_congr (x y : Int) (hdvd : (2 ^ 64 : Int) ∣ x - y) : toInt64 x = toInt64 y := by
  obtain ⟨k, hk⟩ := hdvd
  unfold toInt64
  omega

theorem toInt64_sub_dvd (z : Int) : (2 ^ 64 : Int) ∣ toInt64 z - z := by
  refine ⟨-((z + 2 ^ 63) / 2 ^ 64), ?_⟩
  unfold toInt64
  omega

theorem shiftLeftOne_sub_dvd (j : Nat) : (2 ^ 64 : Int) ∣ shiftLeftOne j - 2 ^ j := by
  unfold shiftLeftOne
  split
  · exact toInt64_sub_dvd _
  · rename_i hj
    have h64 : 64 ≤ j := by omega
    rw [zero_sub, dvd_neg]
    exact pow_dvd_pow 2 h64

theorem toUint64_pred_cast (j : Nat) (hj : (j : Int) < 2 ^ 63) :
    toUint64 (((j + 1 : Nat) : Int) - 1) = j := by
  unfold toUint64
  omega

/-- The wait computed by the code is the product of the base backoff and the
power of two whenever that product is a value of `time.Duration`. -/
theorem backoffDuration_eq (h : httpClientImpl) (j : Nat) (hj : (j : Int) < 2 ^ 63)
    (hfit : isInt64 (h.backoff * 2 ^ j)) :
    backoffDuration h ((j + 1 : Nat) : Int) = h.backoff * 2 ^ j := by
  unfold backoffDuration
  rw [toUint64_pred_cast j hj]
  have hdvd : (2 ^ 64 : Int) ∣ h.backoff * shiftLeftOne j - h.backoff * 2 ^ j := by
    rw [← mul_sub]
    exact Dvd.dvd.mul_left (shiftLeftOne_sub_dvd j) _
  rw [toInt64_congr _ _ hdvd, toInt64_of_isInt64 _ hfit]

theorem sleepBefore_succ (h : httpClientImpl) (j : Nat) (hj : (j : Int) < 2 ^ 63)
    (hfit : isInt64 (h.backoff * 2 ^ j)) :
    sleepBefore h ((j + 1 : Nat) : Int) = [TransportEvent.sleep (h.backoff * 2 ^ j)] := by
  unfold sleepBefore
  have hpos : ((j + 1 : Nat) : Int) > 0 := by omega
  rw [if_pos hpos, backoffDuration_eq h j hj hfit]

theorem attemptEvents_eq_specSchedule (h : httpClientImpl) (N : Nat)
    (hN : (N : Int) < 2 ^ 63) (hfit : ∀ j < N, isInt64 (h.backoff * 2 ^ j)) :
    attemptEvents h 0 (N + 1) = specSchedule h.backoff N := by
  induction N with
  | zero => rfl
  | succ N ih =>
    have hN1 : (N : Int) < 2 ^ 63 := by omega
    rw [attemptEvents_snoc, ih hN1 (fun j hj => hfit j (by omega)), Nat.zero_add,
      sleepBefore_succ h N hN1 (hfit N (by omega))]
    rfl

theorem sleeps_append (t1 t2 : List TransportEvent) :
    sleeps (t1 ++ t2) = sleeps t1 ++ sleeps t2 := by
  induction t1 with
  | nil => rfl
  | cons ev rest ih =>
    cases ev with
    | sleep d => simp [sleeps, ih]
    | request => simp [sleeps, ih]

theorem sleeps_specSchedule (b : Int) (N : Nat) :
    sleeps (specSchedule b N) = (List.range N).map (fun j => b * 2 ^ j) := by
  induction N with
  | zero => rfl
  | succ N ih =>
    rw [specSchedule, sleeps_append, ih, List.range_succ, List.map_append]
    rfl

theorem requestCount_specSchedule (b : Int) (N : Nat) :
    requestCount (specSchedule b N) = N + 1 := by
  induction N with
  | zero => rfl
  | succ N ih =>
    rw [specSchedule, requestCount_append, ih]
    rfl

/-- The loop when every one of the `N + 1` attempts fails retryably: it returns
the error of the last attempt after the effects of `N + 1` iterations. -/
theorem doWithRetry_all_retryable {α : Type} (h : httpClientImpl) (Do : Nat → DoResult)
    (response : Option (String → Except String α)) (N : Nat) (hN : h.retries = (N : Int))
    (hmax : (N : Int) < 2 ^ 63 - 1) (hretry : ∀ k ≤ N, retryable (Do k) = true)
    (fuel : Nat) (hfuel : N + 2 ≤ fuel) :
    doWithRetry h Do response fuel =
      some { err := some (attemptError h (N : Int) (Do N))
             decoded := none
             trace := attemptEvents h 0 (N + 1) } := by
  obtain ⟨extra, hextra⟩ := Nat.exists_eq_add_of_le hfuel
  have hsplit : fuel = (extra + 1) + (N + 1) := by omega
  have hrun := doWithRetryLoop_retry_run h Do response (extra + 1) (N + 1) 0 none
    (fun k _ hk => ⟨by rw [hN]; omega, by omega, hretry k (by omega)⟩)
  have hstop : ¬ (((0 + (N + 1) : Nat) : Int) ≤ h.retries) := by
    rw [hN]
    omega
  unfold doWithRetry
  rw [hsplit]
  have hcast : ((0 : Nat) : Int) = 0 := rfl
  rw [hcast] at hrun
  rw [hrun, doWithRetryLoop, if_neg hstop]
  simp [lastErrAfter, Run.after]

/-- One iteration of the loop whose attempt is answered with a status in
[400,500): the loop returns the error of this attempt at once. -/
theorem doWithRetryLoop_terminal_step {α : Type} (h : httpClientImpl) (Do : Nat → DoResult)
    (response : Option (String → Except String α)) (fuel i : Nat) (lastErr : Option String)
    (StatusCode : Int) (body : String) (hle : (i : Int) ≤ h.retries)
    (hresp : Do i = DoResult.resp StatusCode body)
    (h4xx : 400 ≤ StatusCode ∧ StatusCode < 500) :
    doWithRetryLoop h Do response (fuel + 1) (i : Int) i lastErr =
      some { err := some (statusFailedError h (i : Int) StatusCode body)
             decoded := none
             trace := sleepBefore h (i : Int) ++ [TransportEvent.request] } := by
  have h1 : StatusCode < 200 ∨ StatusCode ≥ 300 := Or.inr (by omega)
  have h2 : StatusCode ≥ 400 ∧ StatusCode < 500 := ⟨h4xx.1, h4xx.2⟩
  rw [doWithRetryLoop, if_pos hle, hresp]
  simp only [if_pos h1, if_pos h2]

/-- With the largest retry count the loop test always holds: while the attempts
fail retryably the loop does not return, whatever the fuel. -/
theorem doWithRetryLoop_never_returns {α : Type} (h : httpClientImpl) (Do : Nat → DoResult)
    (response : Option (String → Except String α)) (hN : h.retries = 2 ^ 63 - 1)
    (hretry : ∀ k, retryable (Do k) = true) :
    ∀ (fuel : Nat) (attempt : Int) (calls : Nat) (lastErr : Option String),
      isInt64 attempt → doWithRetryLoop h Do response fuel attempt calls lastErr = none := by
  intro fuel
  induction fuel with
  | zero =>
    intro attempt calls lastErr _
    rfl
  | succ fuel ih =>
    intro attempt calls lastErr hattempt
    have hle : attempt ≤ h.retries := by
      rw [hN]
      unfold isInt64 at hattempt
      omega
    have hnext := isInt64_toInt64 (attempt + 1)
    rw [doWithRetryLoop, if_pos hle]
    have hr := hretry calls
    cases hDo : Do calls with
    | err e =>
      simp only [ih _ _ _ hnext, Option.map_none']
    | resp StatusCode body =>
      rw [hDo] at hr
      simp only [retryable, Bool.and_eq_true, Bool.or_eq_true, decide_eq_true_eq,
        Bool.not_eq_true', Bool.and_eq_false_imp] at hr
      have h1 : StatusCode < 200 ∨ StatusCode ≥ 300 := hr.1
      have h2 : ¬ (StatusCode ≥ 400 ∧ StatusCode < 500) := by
        intro hc
        have := hr.2 hc.1
        simp at this
        omega
      simp only [if_pos h1, if_neg h2, ih _ _ _ hnext, Option.map_none']

/-! ## Resilient transport: the claims -/

/-- C8, the claim as stated fails: with 2 retries and a base backoff of 2^62 ns the
request is attempted 3 times, but the wait before the second retry is not
2^62 * 2 = 2^63 ns: the product wraps around in `time.Duration` and `time.Sleep`
is called with -2^63. And with the largest retry count, `2^63 - 1`, a request
that is always answered 503 is not attempted `N + 1` times: the loop test holds
for every value of `attempt` and the call never returns. -/
theorem backoff_schedule_counterexample :
    ((doWithRetry (NewHTTPClient 30000000000 2 (2 ^ 62)) alwaysUnavailable
          (none : Option (String → Except String Unit)) 4).map Run.trace =
        some [TransportEvent.request, TransportEvent.sleep (2 ^ 62), TransportEvent.request,
          TransportEvent.sleep (-(2 ^ 63)), TransportEvent.request] ∧
      specSchedule (2 ^ 62) 2 =
        [TransportEvent.request, TransportEvent.sleep (2 ^ 62), TransportEvent.request,
          TransportEvent.sleep (2 ^ 63), TransportEvent.request] ∧
      (doWithRetry (NewHTTPClient 30000000000 2 (2 ^ 62)) alwaysUnavailable
          (none : Option (String → Except String Unit)) 4).map Run.trace ≠
        some (specSchedule (2 ^ 62) 2)) ∧
    ¬ ∃ fuel run, doWithRetry (NewHTTPClient 30000000000 (2 ^ 63 - 1) 100000000)
      alwaysUnavailable (none : Option (String → Except String Unit)) fuel = some run := by
  refine ⟨by decide, ?_⟩
  rintro ⟨fuel, run, hrun⟩
  have hnone := doWithRetryLoop_never_returns
    (NewHTTPClient 30000000000 (2 ^ 63 - 1) 100000000) alwaysUnavailable
    (none : Option (String → Except String Unit)) rfl (fun _ => rfl) fuel 0 0 none (by decide)
  unfold doWithRetry at hrun
  rw [hnone] at hrun
  exact Option.noConfusion hrun

/-- C8, amended: for every retry count `N` with `0 <= N < 2^63 - 1` and every base
backoff `b` such that `b * 2^j` is a value of `time.Duration` for every `j < N`, a
request whose every attempt fails retryably is attempted exactly `N + 1` times,
with no wait before the first attempt and a wait of `b * 2^(k-1)` before the
`k`-th retry. -/
theorem doWithRetry_backoff_schedule {α : Type} (h : httpClientImpl) (Do : Nat → DoResult)
    (response : Option (String → Except String α)) (N : Nat) (hN : h.retries = (N : Int))
    (hmax : (N : Int) < 2 ^ 63 - 1) (hfit : ∀ j < N, isInt64 (h.backoff * 2 ^ j))
    (hretry : ∀ k ≤ N, retryable (Do k) = true) (fuel : Nat) (hfuel : N + 2 ≤ fuel) :
    ∃ run, doWithRetry h Do response fuel = some run ∧
      run.trace = specSchedule h.backoff N ∧
      requestCount run.trace = N + 1 ∧
      run.trace.head? = some TransportEvent.request ∧
      sleeps run.trace = (List.range N).map (fun j => h.backoff * 2 ^ j) := by
  have hrun := doWithRetry_all_retryable h Do response N hN hmax hretry fuel hfuel
  have htrace := attemptEvents_eq_specSchedule h N (by omega) hfit
  refine ⟨_, hrun, htrace, ?_, ?_, ?_⟩
  · show requestCount (attemptEvents h 0 (N + 1)) = N + 1
    exact requestCount_attemptEvents h (N + 1) 0
  · show (attemptEvents h 0 (N + 1)).head? = some TransportEvent.request
    rfl
  · show sleeps (attemptEvents h 0 (N + 1)) = _
    rw [htrace, sleeps_specSchedule]

/-- C8 amended, on the default configuration (3 retries, 100 ms) against a service
that always answers 503: four attempts, with waits of 100, 200 and 400 ms. -/
theorem doWithRetry_backoff_schedule_witness :
    (defaultClient.retries = ((3 : Nat) : Int) ∧ ((3 : Nat) : Int) < 2 ^ 63 - 1 ∧
      (∀ j < 3, isInt64 (defaultClient.backoff * 2 ^ j)) ∧
      (∀ k ≤ 3, retryable (alwaysUnavailable k) = true)) ∧
    ∃ run, doWithRetry defaultClient alwaysUnavailable
        (none : Option (String → Except String Unit)) 5 = some run ∧
      run.trace = specSchedule defaultClient.backoff 3 ∧
      requestCount run.trace = 3 + 1 ∧
      run.trace.head? = some TransportEvent.request ∧
      sleeps run.trace = (List.range 3).map (fun j => defaultClient.backoff * 2 ^ j) :=
  ⟨⟨rfl, by decide, by decide, fun _ _ => rfl⟩,
    doWithRetry_backoff_schedule defaultClient alwaysUnavailable none 3 rfl (by decide)
      (by decide) (fun _ _ => rfl) 5 (by decide)⟩

/-- C9: for every retry count and backoff, when the attempts before attempt `i`
fail retryably and attempt `i` is answered with a status in [400,500), the call
returns the error of that attempt, and the answered request is the last effect:
`i + 1` requests in total, no wait and no request after it. Answered so on its
first attempt (`i = 0`), the request is attempted exactly once. -/
theorem doWithRetry_client_error_is_terminal {α : Type} (h : httpClientImpl)
    (Do : Nat → DoResult) (response : Option (String → Except String α)) (i : Nat)
    (StatusCode : Int) (body : String) (hint : isInt64 h.retries)
    (hle : (i : Int) ≤ h.retries) (hprev : ∀ k < i, retryable (Do k) = true)
    (hresp : Do i = DoResult.resp StatusCode body)
    (h4xx : 400 ≤ StatusCode ∧ StatusCode < 500) (fuel : Nat) (hfuel : i + 1 ≤ fuel) :
    ∃ run, doWithRetry h Do response fuel = some run ∧
      run.err = some (statusFailedError h (i : Int) StatusCode body) ∧
      run.decoded = none ∧
      run.trace = attemptEvents h 0 (i + 1) ∧
      requestCount run.trace = i + 1 ∧
      run.trace.getLast? = some TransportEvent.request ∧
      (i = 0 → run.trace = [TransportEvent.request]) := by
  obtain ⟨extra, hextra⟩ := Nat.exists_eq_add_of_le hfuel
  have hsplit : fuel = (extra + 1) + i := by omega
  have hlt : h.retries < 2 ^ 63 := hint.2
  have hrun := doWithRetryLoop_retry_run h Do response (extra + 1) i 0 none
    (fun k _ hk => ⟨by omega, by omega, hprev k (by omega)⟩)
  have hcast : ((0 : Nat) : Int) = 0 := rfl
  rw [hcast, Nat.zero_add] at hrun
  have hstep := doWithRetryLoop_terminal_step h Do response extra i
    (lastErrAfter h Do 0 i none) StatusCode body hle hresp h4xx
  have hsnoc := attemptEvents_snoc h i 0
  rw [Nat.zero_add] at hsnoc
  have hres : doWithRetry h Do response fuel =
      some { err := some (statusFailedError h (i : Int) StatusCode body)
             decoded := none
             trace := attemptEvents h 0 (i + 1) } := by
    unfold doWithRetry
    rw [hsplit, hrun, hstep, hsnoc]
    rfl
  refine ⟨_, hres, rfl, rfl, rfl, requestCount_attemptEvents h (i + 1) 0,
    getLast?_attemptEvents h i 0, ?_⟩
  intro hi
  subst hi
  rfl

/-- C9, on the default configuration against a service that answers 404: one
request, no wait, and the error of the first attempt. -/
theorem doWithRetry_client_error_is_terminal_witness :
    (isInt64 defaultClient.retries ∧ ((0 : Nat) : Int) ≤ defaultClient.retries ∧
      alwaysNotFound 0 = DoResult.resp 404 "not found" ∧ (400 : Int) ≤ 404 ∧ (404 : Int) < 500) ∧
    ∃ run, doWithRetry defaultClient alwaysNotFound
        (none : Option (String → Except String Unit)) 1 = some run ∧
      run.err = some "HTTP request failed with status 404 (attempt 1/4): not found" ∧
      run.trace = [TransportEvent.request] :=
  ⟨⟨by decide, by decide, rfl, by decide, by decide⟩,
    match doWithRetry_client_error_is_terminal defaultClient alwaysNotFound
        (none : Option (String → Except String Unit)) 0 404 "not found" (by decide) (by decide)
        (fun _ hk => absurd hk (Nat.not_lt_zero _)) rfl ⟨by decide, by decide⟩ 1 (by decide) with
    | ⟨run, hrun, herr, _, _, _, _, hone⟩ => ⟨run, hrun, herr.trans (by decide), hone rfl⟩⟩

/-- C10, the claim as stated fails: with the largest retry count, `2^63 - 1`, the
test `attempt <= h.retries` holds for every value of `attempt`; against a service
that refuses every connection the call returns nothing, whatever the number of
loop iterations allowed, so no error of a last attempt is returned. -/
theorem last_error_counterexample :
    ¬ ∃ fuel run, doWithRetry (NewHTTPClient 30000000000 (2 ^ 63 - 1) 100000000) alwaysRefused
      (none : Option (String → Except String Unit)) fuel = some run := by
  rintro ⟨fuel, run, hrun⟩
  have hnone := doWithRetryLoop_never_returns
    (NewHTTPClient 30000000000 (2 ^ 63 - 1) 100000000) alwaysRefused
    (none : Option (String → Except String Unit)) rfl (fun _ => rfl) fuel 0 0 none (by decide)
  unfold doWithRetry at hrun
  rw [hnone] at hrun
  exact Option.noConfusion hrun

/-- C10, amended: for every retry count `N` with `0 <= N < 2^63 - 1` and every
sequence of `N + 1` retryable failures, `doWithRetry`, `Get` and `Post` return the
error built on the last, `N + 1`-th, attempt; it is the same for every other
sequence of retryable failures with the same last outcome. -/
theorem doWithRetry_returns_last_error {α : Type} (h : httpClientImpl) (Do : Nat → DoResult)
    (response : Option (String → Except String α)) (N : Nat) (hN : h.retries = (N : Int))
    (hmax : (N : Int) < 2 ^ 63 - 1) (hretry : ∀ k ≤ N, retryable (Do k) = true)
    (fuel : Nat) (hfuel : N + 2 ≤ fuel) :
    (doWithRetry h Do response fuel).map Run.err =
        some (some (attemptError h (N : Int) (Do N))) ∧
      (Get h (.ok ()) Do response fuel).map Run.err =
        some (some (attemptError h (N : Int) (Do N))) ∧
      (∀ body : Option String,
        (Post h (body.map Except.ok) (.ok ()) Do response fuel).map Run.err =
          some (some (attemptError h (N : Int) (Do N)))) ∧
      ∀ Do2 : Nat → DoResult, (∀ k ≤ N, retryable (Do2 k) = true) → Do2 N = Do N →
        (doWithRetry h Do2 response fuel).map Run.err =
          (doWithRetry h Do response fuel).map Run.err := by
  have hrun := doWithRetry_all_retryable h Do response N hN hmax hretry fuel hfuel
  have herr : (doWithRetry h Do response fuel).map Run.err =
      some (some (attemptError h (N : Int) (Do N))) := by
    rw [hrun]
    rfl
  refine ⟨herr, herr, ?_, ?_⟩
  · intro body
    cases body <;> exact herr
  · intro Do2 hretry2 hlast
    rw [herr, doWithRetry_all_retryable h Do2 response N hN hmax hretry2 fuel hfuel, hlast]
    rfl

/-- C10 amended, on the default configuration against a service that refuses three
connections and then answers 503: the returned error is the one of the fourth
attempt. -/
theorem doWithRetry_returns_last_error_witness :
    (defaultClient.retries = ((3 : Nat) : Int) ∧ ((3 : Nat) : Int) < 2 ^ 63 - 1 ∧
      (∀ k ≤ 3, retryable (refusedThenUnavailable k) = true)) ∧
    (Get defaultClient (.ok ()) refusedThenUnavailable
        (none : Option (String → Except String Unit)) 5).map Run.err =
      some (some "HTTP request failed with status 503 (attempt 4/4): unavailable") :=
  ⟨⟨rfl, by decide, by decide⟩,
    (doWithRetry_returns_last_error defaultClient refusedThenUnavailable
      (none : Option (String → Except String Unit)) 3 rfl (by decide) (by decide) 5
      (by decide)).2.1.trans (by decide)⟩

/-! ## Lemmas on decoding and on cancellation -/

/-- One iteration of the loop whose attempt is answered with a status in
[200,300): the loop returns at once, with the outcome of the decoding when a
target was supplied. -/
theorem doWithRetryLoop_success_step {α : Type} (h : httpClientImpl) (Do : Nat → DoResult)
    (response : Option (String → Except String α)) (fuel i : Nat) (lastErr : Option String)
    (StatusCode : Int) (body : String) (hle : (i : Int) ≤ h.retries)
    (hresp : Do i = DoResult.resp StatusCode body)
    (h2xx : 200 ≤ StatusCode ∧ StatusCode < 300) :
    doWithRetryLoop h Do response (fuel + 1) (i : Int) i lastErr =
      match response with
      | some decode =>
        match decode body with
        | .error e =>
          some { err := some ("failed to decode response: " ++ e)
                 decoded := none
                 trace := sleepBefore h (i : Int) ++ [TransportEvent.request] }
        | .ok v =>
          some { err := none
                 decoded := some v
                 trace := sleepBefore h (i : Int) ++ [TransportEvent.request] }
      | none =>
        some { err := none
               decoded := none
               trace := sleepBefore h (i : Int) ++ [TransportEvent.request] } := by
  have h1 : ¬ (StatusCode < 200 ∨ StatusCode ≥ 300) := by omega
  rw [doWithRetryLoop, if_pos hle, hresp]
  simp only [if_neg h1]

/-- The call when attempt `i` is the first one that is not a retryable failure:
the result is the one of the iteration of attempt `i`, after the effects of the
`i` failed iterations. -/
theorem doWithRetry_after_failures {α : Type} (h : httpClientImpl) (Do : Nat → DoResult)
    (response : Option (String → Except String α)) (i : Nat) (hint : isInt64 h.retries)
    (hle : (i : Int) ≤ h.retries) (hprev : ∀ k < i, retryable (Do k) = true)
    (extra : Nat) :
    doWithRetry h Do response (extra + 1 + i) =
      (doWithRetryLoop h Do response (extra + 1) (i : Int) i (lastErrAfter h Do 0 i none)).map
        (Run.after (attemptEvents h 0 i)) := by
  have hlt : h.retries < 2 ^ 63 := hint.2
  have hrun := doWithRetryLoop_retry_run h Do response (extra + 1) i 0 none
    (fun k _ hk => ⟨by omega, by omega, hprev k (by omega)⟩)
  have hcast : ((0 : Nat) : Int) = 0 := rfl
  rw [hcast, Nat.zero_add] at hrun
  unfold doWithRetry
  exact hrun

theorem attemptEvents_zero_snoc (h : httpClientImpl) (i : Nat) :
    attemptEvents h 0 i ++ (sleepBefore h (i : Int) ++ [TransportEvent.request]) =
      attemptEvents h 0 (i + 1) := by
  have hsnoc := attemptEvents_snoc h i 0
  rw [Nat.zero_add] at hsnoc
  exact hsnoc.symm

theorem retryable_clientDo_done (ctx : Context) (net : Nat → DoResult) (k : Nat)
    (hdone : ctx.done k = true) :
    clientDo ctx net k = DoResult.err ctx.err ∧ retryable (clientDo ctx net k) = true := by
  unfold clientDo
  rw [if_pos hdone]
  exact ⟨rfl, rfl⟩

theorem sleeps_sleepBefore_pos (h : httpClientImpl) (a : Nat) (rest : List TransportEvent) :
    (sleeps (sleepBefore h ((a + 1 : Nat) : Int) ++ [TransportEvent.request] ++ rest)).length =
      (sleeps rest).length + 1 := by
  have hpos : ((a + 1 : Nat) : Int) > 0 := by omega
  unfold sleepBefore
  rw [if_pos hpos]
  simp [sleeps]

theorem sleeps_attemptEvents_pos (h : httpClientImpl) (m a : Nat) :
    (sleeps (attemptEvents h (a + 1) m)).length = m := by
  induction m generalizing a with
  | zero => rfl
  | succ m ih =>
    rw [attemptEvents, sleeps_sleepBefore_pos, ih]

/-- A call of `N + 1` iterations performs `N` waits. -/
theorem sleeps_attemptEvents_zero (h : httpClientImpl) (N : Nat) :
    (sleeps (attemptEvents h 0 (N + 1))).length = N := by
  have hzero : sleepBefore h ((0 : Nat) : Int) = [] := rfl
  rw [attemptEvents, hzero, List.nil_append, List.singleton_append]
  show (sleeps (attemptEvents h (0 + 1) N)).length = N
  exact sleeps_attemptEvents_pos h N 0

/-! ## Resilient transport: decoding and cancellation -/

/-- C11: when the attempts before attempt `i` fail retryably and attempt `i`
receives a status in [200,300), the call returns at once, whatever retry budget
remains: with a target whose decoding succeeds the decoded value is stored and no
error is returned, with a target whose decoding fails the decode error is
returned, and with no target the call succeeds without decoding. In each case
attempt `i` is the last effect: `i + 1` requests in total. -/
theorem doWithRetry_decodes_on_success {α : Type} (h : httpClientImpl) (Do : Nat → DoResult)
    (i : Nat) (StatusCode : Int) (body : String) (hint : isInt64 h.retries)
    (hle : (i : Int) ≤ h.retries) (hprev : ∀ k < i, retryable (Do k) = true)
    (hresp : Do i = DoResult.resp StatusCode body)
    (h2xx : 200 ≤ StatusCode ∧ StatusCode < 300) (fuel : Nat) (hfuel : i + 1 ≤ fuel) :
    (∀ (decode : String → Except String α) (v : α), decode body = .ok v →
        doWithRetry h Do (some decode) fuel =
          some { err := none, decoded := some v, trace := attemptEvents h 0 (i + 1) }) ∧
      (∀ (decode : String → Except String α) (e : String), decode body = .error e →
        doWithRetry h Do (some decode) fuel =
          some { err := some ("failed to decode response: " ++ e)
                 decoded := none
                 trace := attemptEvents h 0 (i + 1) }) ∧
      doWithRetry h Do (none : Option (String → Except String α)) fuel =
        some { err := none, decoded := none, trace := attemptEvents h 0 (i + 1) } ∧
      requestCount (attemptEvents h 0 (i + 1)) = i + 1 ∧
      (attemptEvents h 0 (i + 1)).getLast? = some TransportEvent.request := by
  obtain ⟨extra, hextra⟩ := Nat.exists_eq_add_of_le hfuel
  have hsplit : fuel = extra + 1 + i := by omega
  have hstep := fun (response : Option (String → Except String α)) =>
    doWithRetryLoop_success_step h Do response extra i (lastErrAfter h Do 0 i none)
      StatusCode body hle hresp h2xx
  have hrun := fun (response : Option (String → Except String α)) =>
    doWithRetry_after_failures h Do response i hint hle hprev extra
  have hsnoc := attemptEvents_zero_snoc h i
  refine ⟨?_, ?_, ?_, requestCount_attemptEvents h (i + 1) 0, getLast?_attemptEvents h i 0⟩
  · intro decode v hv
    rw [hsplit, hrun (some decode), hstep (some decode)]
    simp only [hv, Option.map_some', Run.after, hsnoc]
  · intro decode e he
    rw [hsplit, hrun (some decode), hstep (some decode)]
    simp only [he, Option.map_some', Run.after, hsnoc]
  · rw [hsplit, hrun none, hstep none]
    simp only [Option.map_some', Run.after, hsnoc]

/-- C11, on the default configuration against a service that answers 503 and then
200: with a decoder that rejects the body the decode error is returned after the
second attempt, with three retries left; with a decoder that accepts it the value
is stored; with no target the call succeeds. -/
theorem doWithRetry_decodes_on_success_witness :
    (isInt64 defaultClient.retries ∧ ((1 : Nat) : Int) ≤ defaultClient.retries ∧
      (∀ k < 1, retryable (unavailableThenOK k) = true) ∧
      unavailableThenOK 1 = DoResult.resp 200 "payload") ∧
    doWithRetry defaultClient unavailableThenOK (some decodeNothing) 2 =
      some { err := some "failed to decode response: unexpected end of JSON input"
             decoded := none
             trace := [TransportEvent.request, TransportEvent.sleep 100000000,
               TransportEvent.request] } ∧
    doWithRetry defaultClient unavailableThenOK (some decodeLength) 2 =
      some { err := none
             decoded := some 7
             trace := [TransportEvent.request, TransportEvent.sleep 100000000,
               TransportEvent.request] } :=
  ⟨⟨by decide, by decide, by decide, rfl⟩,
    ((doWithRetry_decodes_on_success defaultClient unavailableThenOK 1 200 "payload"
      (by decide) (by decide) (by decide) rfl ⟨by decide, by decide⟩ 2 (by decide)).2.1
        decodeNothing "unexpected end of JSON input" rfl).trans (by decide),
    ((doWithRetry_decodes_on_success defaultClient unavailableThenOK 1 200 "payload"
      (by decide) (by decide) (by decide) rfl ⟨by decide, by decide⟩ 2 (by decide)).1
        decodeLength 7 rfl).trans (by decide)⟩

/-- C12, the claim as stated fails: with the default configuration and a signal
that is already cancelled, `Get` does not return at once: `h.client.Do` is
called four times and the three backoff waits are performed before the error
comes back; with a signal cancelled after the first attempt the three remaining
attempts and their waits are performed all the same. -/
theorem cancellation_counterexample :
    Get defaultClient (.ok ()) (clientDo cancelledContext alwaysUnavailable)
        (none : Option (String → Except String Unit)) 5 =
      some { err := some "HTTP request failed (attempt 4/4): context canceled"
             decoded := none
             trace := [TransportEvent.request, TransportEvent.sleep 100000000,
               TransportEvent.request, TransportEvent.sleep 200000000,
               TransportEvent.request, TransportEvent.sleep 400000000,
               TransportEvent.request] } ∧
    Get defaultClient (.ok ()) (clientDo cancelledAfterFirst alwaysUnavailable)
        (none : Option (String → Except String Unit)) 5 =
      some { err := some "HTTP request failed (attempt 4/4): context canceled"
             decoded := none
             trace := [TransportEvent.request, TransportEvent.sleep 100000000,
               TransportEvent.request, TransportEvent.sleep 200000000,
               TransportEvent.request, TransportEvent.sleep 400000000,
               TransportEvent.request] } := by
  decide

/-- C12, amended: the transport hands the signal to every attempt but never checks
it itself. For a retry count `N` with `0 <= N < 2^63 - 1`, when the signal is
cancelled from attempt `k0` on (`k0 = 0`: already cancelled at the call) and the
earlier attempts fail retryably, every attempt from `k0` on fails with the
signal's error and is retried like any transport-level error: `Get` and `Post`
perform all `N + 1` calls of `h.client.Do` and all `N` waits, and then return the
error of the last attempt, which wraps the signal's error. With a signal cancelled
at the call the result does not depend on the server: no exchange takes place. -/
theorem doWithRetry_retries_after_cancellation {α : Type} (h : httpClientImpl) (ctx : Context)
    (net : Nat → DoResult) (response : Option (String → Except String α)) (N : Nat)
    (hN : h.retries = (N : Int)) (hmax : (N : Int) < 2 ^ 63 - 1) (k0 : Nat) (hk0 : k0 ≤ N)
    (hdone : ∀ k, k0 ≤ k → k ≤ N → ctx.done k = true)
    (hbefore : ∀ k < k0, retryable (clientDo ctx net k) = true)
    (fuel : Nat) (hfuel : N + 2 ≤ fuel) :
    ∃ run, Get h (.ok ()) (clientDo ctx net) response fuel = some run ∧
      (∀ body : Option String,
        Post h (body.map Except.ok) (.ok ()) (clientDo ctx net) response fuel = some run) ∧
      (k0 = 0 → ∀ other : Nat → DoResult,
        Get h (.ok ()) (clientDo ctx other) response fuel = some run) ∧
      run.err = some (requestFailedError h (N : Int) ctx.err) ∧
      run.decoded = none ∧
      run.trace = attemptEvents h 0 (N + 1) ∧
      requestCount run.trace = N + 1 ∧
      (sleeps run.trace).length = N := by
  have hretry : ∀ k ≤ N, retryable (clientDo ctx net k) = true := by
    intro k hk
    by_cases hlt : k < k0
    · exact hbefore k hlt
    · exact (retryable_clientDo_done ctx net k (hdone k (by omega) hk)).2
  have hlast : clientDo ctx net N = DoResult.err ctx.err :=
    (retryable_clientDo_done ctx net N (hdone N hk0 (Nat.le_refl N))).1
  have hrun := doWithRetry_all_retryable h (clientDo ctx net) response N hN hmax hretry fuel hfuel
  rw [hlast] at hrun
  refine ⟨_, hrun, ?_, ?_, rfl, rfl, rfl, requestCount_attemptEvents h (N + 1) 0,
    sleeps_attemptEvents_zero h N⟩
  · intro body
    cases body <;> exact hrun
  · intro hzero other
    have hother := doWithRetry_all_retryable h (clientDo ctx other) response N hN hmax
      (fun k hk => (retryable_clientDo_done ctx other k (hdone k (by omega) hk)).2) fuel hfuel
    rw [(retryable_clientDo_done ctx other N (hdone N hk0 (Nat.le_refl N))).1] at hother
    exact hother

/-- C12 amended, on the default configuration with a signal cancelled after the
first attempt: four calls of `h.client.Do` and three waits. -/
theorem doWithRetry_retries_after_cancellation_witness :
    (defaultClient.retries = ((3 : Nat) : Int) ∧ ((3 : Nat) : Int) < 2 ^ 63 - 1 ∧ 1 ≤ 3 ∧
      (∀ k, 1 ≤ k → k ≤ 3 → cancelledAfterFirst.done k = true) ∧
      (∀ k < 1, retryable (clientDo cancelledAfterFirst alwaysUnavailable k) = true)) ∧
    ∃ run, Get defaultClient (.ok ()) (clientDo cancelledAfterFirst alwaysUnavailable)
        (none : Option (String → Except String Unit)) 5 = some run ∧
      run.err = some "HTTP request failed (attempt 4/4): context canceled" ∧
      requestCount run.trace = 3 + 1 ∧
      (sleeps run.trace).length = 3 :=
  ⟨⟨rfl, by decide, by decide, fun k hk _ => by simpa [cancelledAfterFirst] using hk,
      by decide⟩,
    match doWithRetry_retries_after_cancellation defaultClient cancelledAfterFirst
        alwaysUnavailable (none : Option (String → Except String Unit)) 3 rfl (by decide) 1
        (by decide) (fun k hk _ => by simpa [cancelledAfterFirst] using hk) (by decide) 5
        (by decide) with
    | ⟨run, hrun, _, _, herr, _, _, hcount, hsleeps⟩ =>
      ⟨run, hrun, herr.trans (by decide), hcount, hsleeps⟩⟩

/-! ## Lemmas on text search and on the remote clients -/

theorem isPrefixOf_self_append (substr rest : List Char) :
    substr.isPrefixOf (substr ++ rest) = true := by
  induction substr with
  | nil => simp [List.isPrefixOf]
  | cons c cs ih => simp [List.isPrefixOf, ih]

theorem containsChars_self_append (substr rest : List Char) :
    containsChars substr (substr ++ rest) = true := by
  have hpre := isPrefixOf_self_append substr rest
  cases hs : substr ++ rest with
  | nil =>
    rw [hs] at hpre
    simp [containsChars, hpre]
  | cons c cs =>
    rw [hs] at hpre
    simp [containsChars, hpre]

theorem containsChars_append_left (substr front s : List Char)
    (hs : containsChars substr s = true) : containsChars substr (front ++ s) = true := by
  induction front with
  | nil => exact hs
  | cons c cs ih => simp [containsChars, ih]

/-- A text contains each text it was built around. -/
theorem stringsContains_middle (front substr back : String) :
    stringsContains (front ++ substr ++ back) substr = true := by
  unfold stringsContains
  simp only [String.data_append, List.append_assoc]
  exact containsChars_append_left _ _ _ (containsChars_self_append _ _)

theorem stringsContains_start (substr back : String) :
    stringsContains (substr ++ back) substr = true := by
  unfold stringsContains
  simp only [String.data_append]
  exact containsChars_self_append _ _

theorem stringsContains_end (front substr : String) :
    stringsContains (front ++ substr) substr = true := by
  unfold stringsContains
  simp only [String.data_append]
  have hself := containsChars_self_append substr.data []
  rw [List.append_nil] at hself
  exact containsChars_append_left _ _ _ hself

theorem GetProduct_of_ok (c : productClientImpl) (calls productID : Nat) (product : ProductDTO)
    (hok : c.httpClient.Get calls (productURL c.baseURL productID) = .ok product) :
    c.GetProduct calls productID =
      ((some product, none), [ClientEvent.get (productURL c.baseURL productID)]) := by
  simp only [productClientImpl.GetProduct, hok]

theorem GetProduct_of_error (c : productClientImpl) (calls productID : Nat) (e : String)
    (herr : c.httpClient.Get calls (productURL c.baseURL productID) = .error e) :
    c.GetProduct calls productID =
      ((none, some ("failed to fetch product " ++ toString productID ++ ": " ++ e)),
        [ClientEvent.get (productURL c.baseURL productID)]) := by
  simp only [productClientImpl.GetProduct, herr]

/-- The loop of `GetProducts` when the fetch of every remaining id succeeds. -/
theorem fetchEach_all_ok (c : productClientImpl) (productIDs : List Nat) :
    ∀ (calls : Nat) (products : List (Option ProductDTO)) (fetched : Nat → ProductDTO),
      (∀ i productID, productIDs[i]? = some productID →
        c.httpClient.Get (calls + i) (productURL c.baseURL productID) = .ok (fetched i)) →
      productClientImpl.fetchEach c productIDs calls products =
        ((some (products ++ (List.range productIDs.length).map (fun i => some (fetched i))), none),
          productIDs.map (fun productID => ClientEvent.get (productURL c.baseURL productID))) := by
  induction productIDs with
  | nil =>
    intro calls products fetched _
    simp [productClientImpl.fetchEach]
  | cons productID rest ih =>
    intro calls products fetched hfetch
    have hhead := GetProduct_of_ok c calls productID (fetched 0)
      (hfetch 0 productID (by simp))
    have hrest := ih (calls + 1) (products ++ [some (fetched 0)]) (fun i => fetched (i + 1))
      (fun i id hid => by
        have hshift := hfetch (i + 1) id (by simpa using hid)
        have hidx : calls + 1 + i = calls + (i + 1) := by omega
        rw [hidx]
        exact hshift)
    rw [productClientImpl.fetchEach, hhead]
    simp only [hrest, List.length_cons, List.range_succ_eq_map, List.map_cons, List.map_map,
      List.append_assoc, List.singleton_append, List.cons_append, List.nil_append]
    rfl

/-- The loop of `GetProducts` when the ids `front` are fetched and the fetch of
the next id fails. -/
theorem fetchEach_first_error (c : productClientImpl) (front : List Nat) (failing : Nat)
    (back : List Nat) (e : String) :
    ∀ (calls : Nat) (products : List (Option ProductDTO)) (fetched : Nat → ProductDTO),
      (∀ i productID, front[i]? = some productID →
        c.httpClient.Get (calls + i) (productURL c.baseURL productID) = .ok (fetched i)) →
      c.httpClient.Get (calls + front.length) (productURL c.baseURL failing) = .error e →
      productClientImpl.fetchEach c (front ++ failing :: back) calls products =
        ((none, some ("failed to fetch product " ++ toString failing ++ ": " ++
            ("failed to fetch product " ++ toString failing ++ ": " ++ e))),
          (front ++ [failing]).map
            (fun productID => ClientEvent.get (productURL c.baseURL productID))) := by
  induction front with
  | nil =>
    intro calls products fetched _ hbad
    have hhead := GetProduct_of_error c calls failing e (by simpa using hbad)
    simp only [List.nil_append, productClientImpl.fetchEach, hhead, List.map_cons, List.map_nil]
  | cons productID rest ih =>
    intro calls products fetched hfetch hbad
    have hhead := GetProduct_of_ok c calls productID (fetched 0)
      (hfetch 0 productID (by simp))
    have hrest := ih (calls + 1) (products ++ [some (fetched 0)]) (fun i => fetched (i + 1))
      (fun i id hid => by
        have hshift := hfetch (i + 1) id (by simpa using hid)
        have hidx : calls + 1 + i = calls + (i + 1) := by omega
        rw [hidx]
        exact hshift)
      (by
        have hidx : calls + 1 + rest.length = calls + (productID :: rest).length := by
          simp only [List.length_cons]
          omega
        rw [hidx]
        exact hbad)
    rw [List.cons_append, productClientImpl.fetchEach, hhead]
    simp only [hrest, List.cons_append, List.map_cons, List.singleton_append, List.nil_append]

/-! ## Remote clients: the claims -/

/-- C13: for every product client, `GetProducts` applied to the empty id list
returns the empty slice (not `nil`) and no error, and makes no call of the
transport. -/
theorem GetProducts_empty (c : productClientImpl) (calls : Nat) :
    c.GetProducts calls [] = ((some [], none), []) := rfl

/-- C14: when the fetch of every id succeeds, `GetProducts` calls the transport
once per id, in the order of the ids (an id that occurs twice is fetched twice),
and returns no error and a slice of the same length as the id list whose `i`-th
element is the product that the `i`-th call left in its target. -/
theorem GetProducts_keeps_order (c : productClientImpl) (calls : Nat) (productIDs : List Nat)
    (fetched : Nat → ProductDTO)
    (hfetch : ∀ i productID, productIDs[i]? = some productID →
      c.httpClient.Get (calls + i) (productURL c.baseURL productID) = .ok (fetched i)) :
    c.GetProducts calls productIDs =
        ((some ((List.range productIDs.length).map (fun i => some (fetched i))), none),
          productIDs.map (fun productID => ClientEvent.get (productURL c.baseURL productID))) ∧
      ((List.range productIDs.length).map (fun i => some (fetched i))).length =
        productIDs.length ∧
      ∀ i, i < productIDs.length →
        ((List.range productIDs.length).map (fun i => some (fetched i)))[i]? =
          some (some (fetched i)) := by
  refine ⟨?_, by simp, ?_⟩
  · unfold productClientImpl.GetProducts
    by_cases hlen : productIDs.length = 0
    · have hnil : productIDs = [] := List.length_eq_zero.mp hlen
      subst hnil
      rfl
    · rw [if_neg hlen, fetchEach_all_ok c productIDs calls [] fetched hfetch, List.nil_append]
  · intro i hi
    simp [List.getElem?_map, List.getElem?_range, hi]

/-- C14, on the ids 5, 3, 5: three calls, in that order, and three products, the
`i`-th one left by the `i`-th call. -/
theorem GetProducts_keeps_order_witness :
    (∀ i productID, [5, 3, 5][i]? = some productID →
      catalogClient.httpClient.Get (0 + i) (productURL catalogClient.baseURL productID) =
        .ok (echoProduct i (productURL catalogClient.baseURL ([5, 3, 5].getD i 0)))) ∧
    catalogClient.GetProducts 0 [5, 3, 5] =
      ((some [some (echoProduct 0 "http://product-service/v1/product/5"),
          some (echoProduct 1 "http://product-service/v1/product/3"),
          some (echoProduct 2 "http://product-service/v1/product/5")], none),
        [ClientEvent.get "http://product-service/v1/product/5",
          ClientEvent.get "http://product-service/v1/product/3",
          ClientEvent.get "http://product-service/v1/product/5"]) :=
  have hfetch : ∀ i productID, [5, 3, 5][i]? = some productID →
      catalogClient.httpClient.Get (0 + i) (productURL catalogClient.baseURL productID) =
        .ok (echoProduct i (productURL catalogClient.baseURL ([5, 3, 5].getD i 0))) := by
    intro i productID hi
    match i, hi with
    | 0, hi => cases hi; rfl
    | 1, hi => cases hi; rfl
    | 2, hi => cases hi; rfl
    | n + 3, hi => simp at hi
  ⟨hfetch,
    (GetProducts_keeps_order catalogClient 0 [5, 3, 5]
      (fun i => echoProduct i (productURL catalogClient.baseURL ([5, 3, 5].getD i 0)))
      hfetch).1.trans (by decide)⟩

/-- C15: when the ids in `front` are fetched and the fetch of the next id,
`failing`, fails, `GetProducts` returns the `nil` slice and an error whose text
names `failing`, and the transport is called for the ids of `front` and for
`failing` only: no id after it is fetched. -/
theorem GetProducts_fails_on_first_error (c : productClientImpl) (calls : Nat)
    (front : List Nat) (failing : Nat) (back : List Nat) (fetched : Nat → ProductDTO)
    (e : String)
    (hfetch : ∀ i productID, front[i]? = some productID →
      c.httpClient.Get (calls + i) (productURL c.baseURL productID) = .ok (fetched i))
    (hbad : c.httpClient.Get (calls + front.length) (productURL c.baseURL failing) = .error e) :
    c.GetProducts calls (front ++ failing :: back) =
        ((none, some ("failed to fetch product " ++ toString failing ++ ": " ++
            ("failed to fetch product " ++ toString failing ++ ": " ++ e))),
          (front ++ [failing]).map
            (fun productID => ClientEvent.get (productURL c.baseURL productID))) ∧
      stringsContains
        ("failed to fetch product " ++ toString failing ++ ": " ++
          ("failed to fetch product " ++ toString failing ++ ": " ++ e))
        ("failed to fetch product " ++ toString failing) = true := by
  refine ⟨?_, ?_⟩
  · have hlen : ¬ ((front ++ failing :: back).length = 0) := by simp
    unfold productClientImpl.GetProducts
    rw [if_neg hlen]
    exact fetchEach_first_error c front failing back e calls [] fetched hfetch hbad
  · rw [String.append_assoc]
    exact stringsContains_start _ _

/-- C15, on the ids 10, 20, 30 when the second fetch fails: no product is
returned, the error names product 20, and product 30 is not fetched. -/
theorem GetProducts_fails_on_first_error_witness :
    (secondFailsClient.httpClient.Get (0 + [10].length)
        (productURL secondFailsClient.baseURL 20) = .error "product not found") ∧
    secondFailsClient.GetProducts 0 ([10] ++ 20 :: [30]) =
      ((none, some "failed to fetch product 20: failed to fetch product 20: product not found"),
        [ClientEvent.get "http://product-service/v1/product/10",
          ClientEvent.get "http://product-service/v1/product/20"]) :=
  ⟨rfl,
    (GetProducts_fails_on_first_error secondFailsClient 0 [10] 20 [30]
      (fun i => echoProduct i "http://product-service/v1/product/10") "product not found"
      (fun i productID hi => by
        match i, hi with
        | 0, hi => cases hi; rfl
        | n + 1, hi => simp at hi)
      rfl).1.trans (by decide)⟩

/-- C16, the code at a failing input: against a service that answers 503 the
transport gives up after the fourth attempt with an error that is not a 404; for
product 7 `ValidateProduct` returns that error, but for product 404 the text of
the error contains "404", as part of the product id, and `ValidateProduct`
returns `false` with no error. -/
theorem ValidateProduct_hides_unavailable_service :
    (Get defaultClient (.ok ()) alwaysUnavailable (some decodeNothing) 5).map Run.err =
      some (some "HTTP request failed with status 503 (attempt 4/4): unavailable") ∧
    unavailableProductClient.ValidateProduct 0 7 =
      ((false, some ("failed to fetch product 7: " ++
          "HTTP request failed with status 503 (attempt 4/4): unavailable")),
        [ClientEvent.get "http://product-service/v1/product/7"]) ∧
    unavailableProductClient.ValidateProduct 0 404 =
      ((false, none), [ClientEvent.get "http://product-service/v1/product/404"]) := by
  decide

/-- C17: for every product id, when the transport returns the error that it builds
for a response with status 404 (whatever the attempt and the body),
`ValidateProduct` returns `false` and no error. -/
theorem ValidateProduct_not_found (c : productClientImpl) (calls productID : Nat)
    (h : httpClientImpl) (attempt : Int) (body : String)
    (h404 : c.httpClient.Get calls (productURL c.baseURL productID) =
      .error (statusFailedError h attempt 404 body)) :
    c.ValidateProduct calls productID =
      ((false, none), [ClientEvent.get (productURL c.baseURL productID)]) := by
  have hcode : toString (404 : Int) = "404" := by decide
  have hfound : stringsContains
      ("failed to fetch product " ++ toString productID ++ ": " ++
        statusFailedError h attempt 404 body) "404" = true := by
    unfold statusFailedError stringsContains
    rw [hcode]
    simp only [String.data_append, List.append_assoc]
    exact containsChars_append_left _ _ _ (containsChars_append_left _ _ _
      (containsChars_append_left _ _ _ (containsChars_append_left _ _ _
        (containsChars_self_append _ _))))
  unfold productClientImpl.ValidateProduct
  rw [GetProduct_of_error c calls productID _ h404]
  simp only [hfound, if_true]

/-- C17, for product 101 against a service that answers 404: the transport returns
the error of the first attempt, and `ValidateProduct` returns `false` and no error. -/
theorem ValidateProduct_not_found_witness :
    (Get defaultClient (.ok ()) alwaysNotFound (some decodeNothing) 1).map Run.err =
      some (some (statusFailedError defaultClient 0 404 "not found")) ∧
    notFoundProductClient.httpClient.Get 0 (productURL notFoundProductClient.baseURL 101) =
      .error (statusFailedError defaultClient 0 404 "not found") ∧
    notFoundProductClient.ValidateProduct 0 101 =
      ((false, none), [ClientEvent.get "http://product-service/v1/product/101"]) :=
  ⟨by decide, rfl,
    (ValidateProduct_not_found notFoundProductClient 0 101 defaultClient 0 "not found" rfl).trans
      (by decide)⟩

/-- C18: for every base URL and every customer id, 0 included, `GetCustomer` makes
exactly one call of the transport, to the URL made of the base, "/v1/customer/"
and the id in decimal; when the call succeeds it returns the customer left in the
target and no error, and when the call fails it returns no customer and an error
whose text contains "failed to fetch customer <id>" and the text of the
transport's error. -/
theorem GetCustomer_single_fetch (c : customerClientImpl) (calls customerID : Nat) :
    (c.GetCustomer calls customerID).2 =
        [ClientEvent.get (c.baseURL ++ "/v1/customer/" ++ toString customerID)] ∧
      (∀ customer : CustomerDTO,
        c.httpClient.Get calls (c.baseURL ++ "/v1/customer/" ++ toString customerID) =
          .ok customer →
        (c.GetCustomer calls customerID).1 = (some customer, none)) ∧
      ∀ e : String,
        c.httpClient.Get calls (c.baseURL ++ "/v1/customer/" ++ toString customerID) =
          .error e →
        ∃ msg, (c.GetCustomer calls customerID).1 = (none, some msg) ∧
          stringsContains msg ("failed to fetch customer " ++ toString customerID) = true ∧
          stringsContains msg e = true := by
  refine ⟨?_, ?_, ?_⟩
  · cases hres : c.httpClient.Get calls (customerURL c.baseURL customerID) <;>
      simp only [customerClientImpl.GetCustomer, hres] <;> rfl
  · intro customer hok
    simp only [customerClientImpl.GetCustomer, customerURL, hok]
  · intro e herr
    refine ⟨"failed to fetch customer " ++ toString customerID ++ ": " ++ e, ?_, ?_, ?_⟩
    · simp only [customerClientImpl.GetCustomer, customerURL, herr]
    · rw [String.append_assoc]
      exact stringsContains_start _ _
    · exact stringsContains_end _ _

/-- C18, for customer 0 over a transport whose call fails, and for customer 456
over a transport whose call succeeds. -/
theorem GetCustomer_single_fetch_witness :
    (timeoutCustomerClient.httpClient.Get 0
        (timeoutCustomerClient.baseURL ++ "/v1/customer/" ++ toString 0) =
      .error "connection timeout") ∧
    (timeoutCustomerClient.GetCustomer 0 0).2 =
      [ClientEvent.get "http://customer-service/v1/customer/0"] ∧
    (∃ msg, (timeoutCustomerClient.GetCustomer 0 0).1 = (none, some msg) ∧
      stringsContains msg ("failed to fetch customer " ++ toString 0) = true ∧
      stringsContains msg "connection timeout" = true) ∧
    (reachableCustomerClient.GetCustomer 0 456).1 =
      (some { ID := 456, Name := "John Doe", CPF := 12345678901, Email := "john@example.com" },
        none) :=
  ⟨rfl,
    (GetCustomer_single_fetch timeoutCustomerClient 0 0).1.trans (by decide),
    (GetCustomer_single_fetch timeoutCustomerClient 0 0).2.2 "connection timeout" rfl,
    (GetCustomer_single_fetch reachableCustomerClient 0 456).2.1 _ rfl⟩

/-! ## Order status projection: the claims -/

/-- C19, the claim as stated fails: the labels that `GetStatusDescription` returns
for the codes 1, 2, 3, 4 are not "Received", "Preparing", "Ready", "Completed". -/
theorem status_labels_counterexample :
    GetStatusDescription 1 ≠ .ok "Received" ∧ GetStatusDescription 2 ≠ .ok "Preparing" ∧
      GetStatusDescription 3 ≠ .ok "Ready" ∧ GetStatusDescription 4 ≠ .ok "Completed" := by
  refine ⟨?_, ?_, ?_, ?_⟩ <;>
    · intro hlabel
      have hstr := Except.ok.inj hlabel
      revert hstr
      decide

/-- C19, amended: `GetStatusDescription` is the closed mapping of 1, 2, 3, 4 to
"Recebido", "Em preparação", "Pronto", "Finalizado", and fails with the error
"status not found" for every other code. -/
theorem GetStatusDescription_mapping (status : Nat) :
    GetStatusDescription status =
      if status = 1 then .ok "Recebido"
      else if status = 2 then .ok "Em preparação"
      else if status = 3 then .ok "Pronto"
      else if status = 4 then .ok "Finalizado"
      else .error "status not found" := by
  match status with
  | 0 => rfl
  | 1 => rfl
  | 2 => rfl
  | 3 => rfl
  | 4 => rfl
  | n + 5 =>
    have h1 : ¬ (n + 5 = 1) := by omega
    have h2 : ¬ (n + 5 = 2) := by omega
    have h3 : ¬ (n + 5 = 3) := by omega
    have h4 : ¬ (n + 5 = 4) := by omega
    rw [if_neg h1, if_neg h2, if_neg h3, if_neg h4]
    rfl

/-- C20: `GetStatusDescription` returns "Recebido", "Em preparação", "Pronto",
"Finalizado" and no error for the codes 1, 2, 3, 4, and returns an error and the
empty label for every other unsigned code. -/
theorem GetStatusDescription_labels_and_errors (status : Nat)
    (hother : status ≠ 1 ∧ status ≠ 2 ∧ status ≠ 3 ∧ status ≠ 4) :
    (GetStatusDescription 1 = .ok "Recebido" ∧ GetStatusDescription 2 = .ok "Em preparação" ∧
      GetStatusDescription 3 = .ok "Pronto" ∧ GetStatusDescription 4 = .ok "Finalizado") ∧
    (∃ e, GetStatusDescription status = .error e) ∧
    ∀ label, GetStatusDescription status ≠ .ok label := by
  have herr : GetStatusDescription status = .error "status not found" := by
    match status, hother with
    | 0, _ => rfl
    | 1, h => exact absurd rfl h.1
    | 2, h => exact absurd rfl h.2.1
    | 3, h => exact absurd rfl h.2.2.1
    | 4, h => exact absurd rfl h.2.2.2
    | n + 5, _ => rfl
  refine ⟨⟨rfl, rfl, rfl, rfl⟩, ⟨_, herr⟩, ?_⟩
  intro label hlabel
  rw [herr] at hlabel
  exact Except.noConfusion hlabel

/-- C20, for the codes 0, 5 and 999 of the tests. -/
theorem GetStatusDescription_labels_and_errors_witness :
    ((0 : Nat) ≠ 1 ∧ (0 : Nat) ≠ 2 ∧ (0 : Nat) ≠ 3 ∧ (0 : Nat) ≠ 4) ∧
    (∃ e, GetStatusDescription 0 = .error e) ∧
    (∃ e, GetStatusDescription 5 = .error e) ∧
    (∃ e, GetStatusDescription 999 = .error e) :=
  ⟨by decide,
    (GetStatusDescription_labels_and_errors 0 (by decide)).2.1,
    (GetStatusDescription_labels_and_errors 5 (by decide)).2.1,
    (GetStatusDescription_labels_and_errors 999 (by decide)).2.1⟩

/-! ## Lemmas on status records, several orders and repeated products -/

theorem PresentStatus_of_valid (format : Time → String) (orderStatus : OrderStatusEntity)
    (hvalid : validStatusCode orderStatus.CurrentStatus) :
    ∃ label, GetStatusDescription orderStatus.CurrentStatus = .ok label ∧
      PresentStatus format orderStatus =
        some { ID := orderStatus.ID
               CreatedAt := format orderStatus.CreatedAt
               CurrentStatus := orderStatus.CurrentStatus
               CurrentStatusDescription := label
               OrderId := orderStatus.OrderId } := by
  unfold validStatusCode at hvalid
  rcases hvalid with h | h | h | h
  · exact ⟨"Recebido", by rw [h]; rfl, by simp only [PresentStatus, h, GetStatusDescription]⟩
  · exact ⟨"Em preparação", by rw [h]; rfl,
      by simp only [PresentStatus, h, GetStatusDescription]⟩
  · exact ⟨"Pronto", by rw [h]; rfl, by simp only [PresentStatus, h, GetStatusDescription]⟩
  · exact ⟨"Finalizado", by rw [h]; rfl, by simp only [PresentStatus, h, GetStatusDescription]⟩

theorem GetStatusDescription_of_invalid (status : Nat) (hinvalid : ¬ validStatusCode status) :
    GetStatusDescription status = .error "status not found" := by
  unfold validStatusCode at hinvalid
  match status, hinvalid with
  | 0, _ => rfl
  | 1, h => exact absurd (Or.inl rfl) h
  | 2, h => exact absurd (Or.inr (Or.inl rfl)) h
  | 3, h => exact absurd (Or.inr (Or.inr (Or.inl rfl))) h
  | 4, h => exact absurd (Or.inr (Or.inr (Or.inr rfl))) h
  | n + 5, _ => rfl

theorem PresentStatus_eq_none_iff (format : Time → String) (orderStatus : OrderStatusEntity) :
    PresentStatus format orderStatus = none ↔ ¬ validStatusCode orderStatus.CurrentStatus := by
  constructor
  · intro hnone hvalid
    obtain ⟨label, _, hsome⟩ := PresentStatus_of_valid format orderStatus hvalid
    rw [hsome] at hnone
    exact Option.noConfusion hnone
  · intro hinvalid
    simp only [PresentStatus, GetStatusDescription_of_invalid _ hinvalid]

theorem presentEach_views (format : Time → String) (p : OrderPresenterImpl)
    (orders : List OrderEntity) :
    (presentEach format p orders).1 = orders.map (fun order => (Present format p order).1) := by
  induction orders with
  | nil => rfl
  | cons order rest ih => simp only [presentEach, ih, List.map_cons]

theorem presentEach_events (format : Time → String) (p : OrderPresenterImpl)
    (orders : List OrderEntity) :
    (presentEach format p orders).2 =
      (orders.map (fun order => (Present format p order).2)).flatten := by
  induction orders with
  | nil => rfl
  | cons order rest ih => simp only [presentEach, ih, List.map_cons, List.flatten_cons]

theorem foldl_insert_of_not_mem (products : List ProductDTO) (m : ProductMap) (k : Nat)
    (hnot : ∀ product ∈ products, product.ID ≠ k) :
    products.foldl (fun m product => m.insert product.ID product) m k = m k := by
  induction products generalizing m with
  | nil => rfl
  | cons a rest ih =>
    rw [List.foldl_cons, ih _ (fun q hq => hnot q (List.mem_cons_of_mem _ hq))]
    unfold ProductMap.insert
    have hne : ¬ (k = a.ID) := fun hk => hnot a (List.mem_cons_self _ _) hk.symm
    rw [if_neg hne]

/-- The lookup built from the returned products holds, for an id, the last of the
products with that id. -/
theorem buildProductMap_last (front : List ProductDTO) (last : ProductDTO)
    (back : List ProductDTO) (hback : ∀ product ∈ back, product.ID ≠ last.ID) :
    buildProductMap (front ++ last :: back) last.ID = some last := by
  unfold buildProductMap
  rw [List.foldl_append, List.foldl_cons, foldl_insert_of_not_mem back _ last.ID hback]
  simp [ProductMap.insert]

/-! ## Status records, several orders, repeated products: the claims -/

/-- C21: for every list of status records, `PresentMultipleStatus` returns a list
of the same length whose `i`-th entry is the presentation of record `i` alone; that
entry is null exactly when the record's status code is outside 1, 2, 3, 4, and
otherwise carries the record's id, status code and order id and the label of the
code. -/
theorem PresentMultipleStatus_per_record (format : Time → String)
    (orderStatus : List OrderStatusEntity) :
    (PresentMultipleStatus format orderStatus).length = orderStatus.length ∧
      ∀ (i : Nat) (record : OrderStatusEntity), orderStatus[i]? = some record →
        (PresentMultipleStatus format orderStatus)[i]? = some (PresentStatus format record) ∧
        (PresentStatus format record = none ↔ ¬ validStatusCode record.CurrentStatus) ∧
        (validStatusCode record.CurrentStatus →
          ∃ label, GetStatusDescription record.CurrentStatus = .ok label ∧
            PresentStatus format record =
              some { ID := record.ID
                     CreatedAt := format record.CreatedAt
                     CurrentStatus := record.CurrentStatus
                     CurrentStatusDescription := label
                     OrderId := record.OrderId }) := by
  refine ⟨by simp [PresentMultipleStatus], ?_⟩
  intro i record hrecord
  refine ⟨?_, PresentStatus_eq_none_iff format record, PresentStatus_of_valid format record⟩
  simp only [PresentMultipleStatus, List.getElem?_map, hrecord, Option.map_some']

/-- C21, on three records with the codes 1, 9 and 4: the second entry is null,
the first and the third are presented. -/
theorem PresentMultipleStatus_per_record_witness :
    sampleStatuses[1]? =
      some { ID := 2, CreatedAt := ⟨1700000060⟩, CurrentStatus := 9, OrderId := 123 } ∧
    (PresentMultipleStatus sampleFormat sampleStatuses)[1]? = some none ∧
    PresentMultipleStatus sampleFormat sampleStatuses =
      [some { ID := 1, CreatedAt := "1700000000", CurrentStatus := 1,
              CurrentStatusDescription := "Recebido", OrderId := 123 },
       none,
       some { ID := 3, CreatedAt := "1700000120", CurrentStatus := 4,
              CurrentStatusDescription := "Finalizado", OrderId := 123 }] :=
  ⟨rfl,
    ((PresentMultipleStatus_per_record sampleFormat sampleStatuses).2 1
      { ID := 2, CreatedAt := ⟨1700000060⟩, CurrentStatus := 9, OrderId := 123 } rfl).1.trans
        (by decide),
    by decide⟩

/-- C22: for every list of orders, `PresentOrders` returns a list of the same
length whose `i`-th element is the view that `Present` returns for the `i`-th
order, and its effects are those of presenting the orders one after the other;
for the empty list the result is empty and there is no effect. -/
theorem PresentOrders_maps_Present (format : Time → String) (p : OrderPresenterImpl)
    (orders : List OrderEntity) :
    (PresentOrders format p orders).1.Orders.length = orders.length ∧
      (∀ i : Nat, (PresentOrders format p orders).1.Orders[i]? =
        (orders[i]?).map (fun order => (Present format p order).1)) ∧
      (PresentOrders format p orders).2 =
        (orders.map (fun order => (Present format p order).2)).flatten ∧
      PresentOrders format p [] = ({ Orders := [] }, []) := by
  have hviews : (PresentOrders format p orders).1.Orders =
      orders.map (fun order => (Present format p order).1) := presentEach_views format p orders
  refine ⟨by rw [hviews, List.length_map], ?_, presentEach_events format p orders, rfl⟩
  intro i
  rw [hviews, List.getElem?_map]

/-- C30: when the products returned by `GetProducts` are `front`, then `last`, then
`back`, and no product of `back` has the id of `last`, every order line with that
id is enriched from `last`, whatever products with the same id `front` holds; and
any two lines with the same product id receive the same enrichment fields. -/
theorem PresentProducts_last_product_wins (p : OrderPresenterImpl)
    (orderProducts : List OrderProductEntity) (front : List ProductDTO) (last : ProductDTO)
    (back : List ProductDTO)
    (hok : p.productClient.GetProducts (orderProducts.map fun o => o.ProductId) =
      .ok (front ++ last :: back))
    (hback : ∀ product ∈ back, product.ID ≠ last.ID) :
    (∀ (i : Nat) (line : OrderProductEntity), orderProducts[i]? = some line →
        line.ProductId = last.ID →
        (PresentProducts p orderProducts).1[i]? =
          some { ProductId := line.ProductId
                 Price := line.Price
                 Quantity := line.Quantity
                 Name := last.Name
                 Description := last.Description
                 Category := last.Category
                 ImageLink := last.ImageLink }) ∧
      ∀ (i j : Nat) (first second : OrderProductEntity) (d1 d2 : OrderProductDto),
        orderProducts[i]? = some first → orderProducts[j]? = some second →
        first.ProductId = second.ProductId →
        (PresentProducts p orderProducts).1[i]? = some d1 →
        (PresentProducts p orderProducts).1[j]? = some d2 →
        d1.Name = d2.Name ∧ d1.Description = d2.Description ∧ d1.Category = d2.Category ∧
          d1.ImageLink = d2.ImageLink := by
  have hp := PresentProducts_of_ok p orderProducts (front ++ last :: back) hok
  refine ⟨?_, ?_⟩
  · intro i line hline hid
    have hlookup := buildProductMap_last front last back hback
    rw [hp]
    simp only [List.getElem?_map, hline, Option.map_some', enrichOrderProduct, hid, hlookup]
  · intro i j first second d1 d2 hfirst hsecond hid h1 h2
    rw [hp] at h1 h2
    simp only [List.getElem?_map, hfirst, hsecond, Option.map_some', Option.some.injEq] at h1 h2
    subst h1
    subst h2
    unfold enrichOrderProduct
    rw [hid]
    cases buildProductMap (front ++ last :: back) second.ProductId <;> exact ⟨rfl, rfl, rfl, rfl⟩

/-- C30, on two lines of product 10 when the service returns two products with id
10 and then another product: both lines are enriched from the second one. -/
theorem PresentProducts_last_product_wins_witness :
    (duplicatesPresenter.productClient.GetProducts (twinLines.map fun o => o.ProductId) =
        .ok ([burger] ++ veggieBurger :: [juice]) ∧
      ∀ product ∈ [juice], product.ID ≠ veggieBurger.ID) ∧
    (PresentProducts duplicatesPresenter twinLines).1 =
      [{ ProductId := 10, Price := ⟨1103888384⟩, Quantity := 2, Name := "Veggie burger",
         Description := "No meat", Category := 2, ImageLink := "veggie.png" },
       { ProductId := 10, Price := ⟨1092616192⟩, Quantity := 1, Name := "Veggie burger",
         Description := "No meat", Category := 2, ImageLink := "veggie.png" }] ∧
    (PresentProducts duplicatesPresenter twinLines).1[0]? =
      some { ProductId := 10, Price := ⟨1103888384⟩, Quantity := 2, Name := "Veggie burger",
             Description := "No meat", Category := 2, ImageLink := "veggie.png" } :=
  ⟨⟨rfl, by decide⟩, by decide,
    (PresentProducts_last_product_wins duplicatesPresenter twinLines [burger] veggieBurger
      [juice] rfl (by decide)).1 0
      { ID := 1, OrderId := 123, ProductId := 10, Price := ⟨1103888384⟩, Quantity := 2 } rfl rfl⟩

/-! ## Lemmas on the use cases -/

/-- The loop over the order lines when every line is stored. -/
theorem addOrderProducts_all_ok (u : AddOrderUseCaseImpl) (orderId : Nat)
    (lines : List AddOrderProductDto) :
    ∀ k : Nat,
      (∀ i line, lines[i]? = some line →
        u.orderProductRepository.AddOrderProduct (k + i) (newOrderProductEntity orderId line) =
          none) →
      AddOrderUseCaseImpl.addOrderProducts u orderId lines k =
        (none, lines.map
          (fun line => UseCaseEvent.addOrderProduct (newOrderProductEntity orderId line))) := by
  induction lines with
  | nil =>
    intro k _
    rfl
  | cons line rest ih =>
    intro k hall
    have hhead := hall 0 line (by simp)
    rw [Nat.add_zero] at hhead
    have hrest := ih (k + 1) (fun i l hl => by
      have hshift := hall (i + 1) l (by simpa using hl)
      have hidx : k + 1 + i = k + (i + 1) := by omega
      rw [hidx]
      exact hshift)
    simp only [AddOrderUseCaseImpl.addOrderProducts, hhead, hrest, List.map_cons]

/-- The loop over the order lines when the lines of `front` are stored and the
next line cannot be stored. -/
theorem addOrderProducts_first_error (u : AddOrderUseCaseImpl) (orderId : Nat)
    (front : List AddOrderProductDto) (failing : AddOrderProductDto)
    (back : List AddOrderProductDto) (err : String) :
    ∀ k : Nat,
      (∀ i line, front[i]? = some line →
        u.orderProductRepository.AddOrderProduct (k + i) (newOrderProductEntity orderId line) =
          none) →
      u.orderProductRepository.AddOrderProduct (k + front.length)
        (newOrderProductEntity orderId failing) = some err →
      AddOrderUseCaseImpl.addOrderProducts u orderId (front ++ failing :: back) k =
        (some err, (front ++ [failing]).map
          (fun line => UseCaseEvent.addOrderProduct (newOrderProductEntity orderId line))) := by
  induction front with
  | nil =>
    intro k _ hbad
    have hhead : u.orderProductRepository.AddOrderProduct k
        (newOrderProductEntity orderId failing) = some err := by simpa using hbad
    simp only [List.nil_append, AddOrderUseCaseImpl.addOrderProducts, hhead, List.map_cons,
      List.map_nil]
  | cons line rest ih =>
    intro k hall hbad
    have hhead := hall 0 line (by simp)
    rw [Nat.add_zero] at hhead
    have hrest := ih (k + 1) (fun i l hl => by
      have hshift := hall (i + 1) l (by simpa using hl)
      have hidx : k + 1 + i = k + (i + 1) := by omega
      rw [hidx]
      exact hshift)
      (by
        have hidx : k + 1 + rest.length = k + (line :: rest).length := by
          simp only [List.length_cons]
          omega
        rw [hidx]
        exact hbad)
    rw [List.cons_append, AddOrderUseCaseImpl.addOrderProducts]
    simp only [hhead, hrest, List.cons_append, List.map_cons]

/-- The loop over the order lines only calls `AddOrderProduct`. -/
theorem addOrderProducts_events (u : AddOrderUseCaseImpl) (orderId : Nat)
    (lines : List AddOrderProductDto) :
    ∀ k : Nat, ∀ ev ∈ (AddOrderUseCaseImpl.addOrderProducts u orderId lines k).2,
      ∃ line, ev = UseCaseEvent.addOrderProduct (newOrderProductEntity orderId line) := by
  induction lines with
  | nil =>
    intro k ev hev
    simp [AddOrderUseCaseImpl.addOrderProducts] at hev
  | cons line rest ih =>
    intro k ev hev
    unfold AddOrderUseCaseImpl.addOrderProducts at hev
    cases hres : u.orderProductRepository.AddOrderProduct k (newOrderProductEntity orderId line) with
    | some err =>
      simp only [hres, List.mem_singleton] at hev
      exact ⟨line, hev⟩
    | none =>
      simp only [hres, List.mem_cons] at hev
      rcases hev with hev | hev
      · exact ⟨line, hev⟩
      · exact ih (k + 1) ev hev

/-- The effects of `Execute`: the call of `AddOrder`, calls of `AddOrderProduct`,
and at the end at most one call of `AddOrderStatus`, with status code 1. -/
theorem Execute_events (u : AddOrderUseCaseImpl) (command : AddOrderCommand) :
    ∀ ev ∈ (u.Execute command).2,
      ev = UseCaseEvent.addOrder (newOrderEntity command) ∨
      (∃ orderId line, ev = UseCaseEvent.addOrderProduct (newOrderProductEntity orderId line)) ∨
      ∃ orderId, ev = UseCaseEvent.addOrderStatus (newOrderStatusEntity orderId 1) := by
  intro ev hev
  unfold AddOrderUseCaseImpl.Execute at hev
  cases hadd : u.orderRepository.AddOrder (newOrderEntity command) with
  | error err =>
    simp only [hadd, List.mem_singleton] at hev
    exact Or.inl hev
  | ok orderResult =>
    have hloop := addOrderProducts_events u orderResult.ID command.Products 0
    cases hlines : AddOrderUseCaseImpl.addOrderProducts u orderResult.ID command.Products 0 with
    | mk lineErr events =>
      rw [hlines] at hloop
      cases lineErr with
      | some err =>
        simp only [hadd, hlines, List.mem_cons] at hev
        rcases hev with hev | hev
        · exact Or.inl hev
        · obtain ⟨line, hline⟩ := hloop ev hev
          exact Or.inr (Or.inl ⟨orderResult.ID, line, hline⟩)
      | none =>
        cases hstatus : u.orderStatusRepository.AddOrderStatus
            (newOrderStatusEntity orderResult.ID 1) with
        | some err =>
          simp only [hadd, hlines, hstatus, List.mem_cons, List.mem_append,
            List.mem_singleton, List.not_mem_nil, or_false] at hev
          rcases hev with hev | hev | hev
          · exact Or.inl hev
          · obtain ⟨line, hline⟩ := hloop ev hev
            exact Or.inr (Or.inl ⟨orderResult.ID, line, hline⟩)
          · exact Or.inr (Or.inr ⟨orderResult.ID, hev⟩)
        | none =>
          simp only [hadd, hlines, hstatus, List.mem_cons, List.mem_append,
            List.mem_singleton, List.not_mem_nil, or_false] at hev
          rcases hev with hev | hev | hev
          · exact Or.inl hev
          · obtain ⟨line, hline⟩ := hloop ev hev
            exact Or.inr (Or.inl ⟨orderResult.ID, line, hline⟩)
          · exact Or.inr (Or.inr ⟨orderResult.ID, hev⟩)

/-! ## Use cases and controller: the claims -/

/-- C23, the code at a failing input: for no command does `Execute` call a remote
client, and for a command that names product 999, with a product service that
returns no product for it, `Execute` stores the order, its line and its status
record and returns the id "1" and no error. -/
theorem Execute_does_not_validate_products :
    (∀ (u : AddOrderUseCaseImpl) (command : AddOrderCommand),
      (u.Execute command).2.filter isRemoteCall = []) ∧
    unvalidatedUseCase.productClient.GetProducts
        (unknownProductCommand.Products.map fun line => line.ProductId) = .ok [] ∧
    unvalidatedUseCase.Execute unknownProductCommand =
      (("1", none),
        [UseCaseEvent.addOrder
            { ID := 0, CreatedAt := zeroTime, TotalAmount := ⟨1103888384⟩, CustomerId := 1,
              Products := [], Status := [] },
          UseCaseEvent.addOrderProduct
            { ID := 0, OrderId := 1, ProductId := 999, Price := ⟨1103888384⟩, Quantity := 1 },
          UseCaseEvent.addOrderStatus
            { ID := 0, CreatedAt := zeroTime, CurrentStatus := 1, OrderId := 1 }]) := by
  refine ⟨?_, rfl, by decide⟩
  intro u command
  rw [List.filter_eq_nil_iff]
  intro ev hev
  rcases Execute_events u command ev hev with h | ⟨_, _, h⟩ | ⟨_, h⟩ <;>
    · rw [h]
      simp [isRemoteCall]

/-- C24: for every command, when the repository calls that `Execute` makes all
succeed, `Execute` stores one order with the command's customer id and total
amount, then one order-product per command line, in command order, with the new
order's id and the line's product id, price and quantity, then one status record
with status code 1 for the new order, and returns the new order's id in decimal
and no error. -/
theorem Execute_stores_order (u : AddOrderUseCaseImpl) (command : AddOrderCommand)
    (orderResult : OrderEntity)
    (hadd : u.orderRepository.AddOrder
      { ID := 0, CreatedAt := zeroTime, TotalAmount := command.TotalAmount,
        CustomerId := command.CustomerId, Products := [], Status := [] } = .ok orderResult)
    (hlines : ∀ i line, command.Products[i]? = some line →
      u.orderProductRepository.AddOrderProduct i
        { ID := 0, OrderId := orderResult.ID, ProductId := line.ProductId, Price := line.Price,
          Quantity := line.Quantity } = none)
    (hstatus : u.orderStatusRepository.AddOrderStatus
      { ID := 0, CreatedAt := zeroTime, CurrentStatus := 1, OrderId := orderResult.ID } = none) :
    u.Execute command =
      ((toString orderResult.ID, none),
        [UseCaseEvent.addOrder
            { ID := 0, CreatedAt := zeroTime, TotalAmount := command.TotalAmount,
              CustomerId := command.CustomerId, Products := [], Status := [] }] ++
          command.Products.map (fun line => UseCaseEvent.addOrderProduct
            { ID := 0, OrderId := orderResult.ID, ProductId := line.ProductId,
              Price := line.Price, Quantity := line.Quantity }) ++
          [UseCaseEvent.addOrderStatus
            { ID := 0, CreatedAt := zeroTime, CurrentStatus := 1, OrderId := orderResult.ID }]) := by
  have hloop := addOrderProducts_all_ok u orderResult.ID command.Products 0
    (fun i line hline => by
      rw [Nat.zero_add]
      exact hlines i line hline)
  have hadd2 : u.orderRepository.AddOrder (newOrderEntity command) = .ok orderResult := hadd
  have hstatus2 : u.orderStatusRepository.AddOrderStatus
      (newOrderStatusEntity orderResult.ID 1) = none := hstatus
  simp only [AddOrderUseCaseImpl.Execute, hadd2, hloop, hstatus2]
  rfl

/-- C24, on a command with three lines over repositories that accept everything:
five repository calls, and the id "1". -/
theorem Execute_stores_order_witness :
    (unvalidatedUseCase.orderRepository.AddOrder
        { ID := 0, CreatedAt := zeroTime, TotalAmount := threeLinesCommand.TotalAmount,
          CustomerId := threeLinesCommand.CustomerId, Products := [], Status := [] } =
      .ok { ID := 1, CreatedAt := zeroTime, TotalAmount := ⟨1124859904⟩, CustomerId := 5,
            Products := [], Status := [] }) ∧
    unvalidatedUseCase.Execute threeLinesCommand =
      (("1", none),
        [UseCaseEvent.addOrder
            { ID := 0, CreatedAt := zeroTime, TotalAmount := ⟨1124859904⟩, CustomerId := 5,
              Products := [], Status := [] },
          UseCaseEvent.addOrderProduct
            { ID := 0, OrderId := 1, ProductId := 10, Price := ⟨1092616192⟩, Quantity := 1 },
          UseCaseEvent.addOrderProduct
            { ID := 0, OrderId := 1, ProductId := 20, Price := ⟨1101004800⟩, Quantity := 2 },
          UseCaseEvent.addOrderProduct
            { ID := 0, OrderId := 1, ProductId := 30, Price := ⟨1106247680⟩, Quantity := 3 },
          UseCaseEvent.addOrderStatus
            { ID := 0, CreatedAt := zeroTime, CurrentStatus := 1, OrderId := 1 }]) :=
  ⟨rfl,
    (Execute_stores_order unvalidatedUseCase threeLinesCommand
      { ID := 1, CreatedAt := zeroTime, TotalAmount := ⟨1124859904⟩, CustomerId := 5,
        Products := [], Status := [] } rfl (fun _ _ _ => rfl) rfl).trans (by decide)⟩

/-- C25: `Execute` stops at the first repository failure and returns that error
with the empty order id. When storing the order fails, the call of `AddOrder` is
the only call; when the lines of `front` are stored and storing the next line
fails, no later line and no status record is added; when storing the status
record fails, its error is returned. -/
theorem Execute_stops_at_first_failure (u : AddOrderUseCaseImpl) (command : AddOrderCommand) :
    (∀ err, u.orderRepository.AddOrder (newOrderEntity command) = .error err →
        u.Execute command = (("", some err), [UseCaseEvent.addOrder (newOrderEntity command)])) ∧
      (∀ (orderResult : OrderEntity) (front : List AddOrderProductDto)
          (failing : AddOrderProductDto) (back : List AddOrderProductDto) (err : String),
        u.orderRepository.AddOrder (newOrderEntity command) = .ok orderResult →
        command.Products = front ++ failing :: back →
        (∀ i line, front[i]? = some line →
          u.orderProductRepository.AddOrderProduct i
            (newOrderProductEntity orderResult.ID line) = none) →
        u.orderProductRepository.AddOrderProduct front.length
          (newOrderProductEntity orderResult.ID failing) = some err →
        u.Execute command =
          (("", some err),
            UseCaseEvent.addOrder (newOrderEntity command) ::
              (front ++ [failing]).map (fun line =>
                UseCaseEvent.addOrderProduct (newOrderProductEntity orderResult.ID line)))) ∧
      ∀ (orderResult : OrderEntity) (err : String),
        u.orderRepository.AddOrder (newOrderEntity command) = .ok orderResult →
        (∀ i line, command.Products[i]? = some line →
          u.orderProductRepository.AddOrderProduct i
            (newOrderProductEntity orderResult.ID line) = none) →
        u.orderStatusRepository.AddOrderStatus (newOrderStatusEntity orderResult.ID 1) =
          some err →
        u.Execute command =
          (("", some err),
            UseCaseEvent.addOrder (newOrderEntity command) ::
              (command.Products.map (fun line =>
                  UseCaseEvent.addOrderProduct (newOrderProductEntity orderResult.ID line)) ++
                [UseCaseEvent.addOrderStatus (newOrderStatusEntity orderResult.ID 1)])) := by
  refine ⟨?_, ?_, ?_⟩
  · intro err hadd
    simp only [AddOrderUseCaseImpl.Execute, hadd]
  · intro orderResult front failing back err hadd hsplit hfront hbad
    have hloop := addOrderProducts_first_error u orderResult.ID front failing back err 0
      (fun i line hline => by
        rw [Nat.zero_add]
        exact hfront i line hline)
      (by
        rw [Nat.zero_add]
        exact hbad)
    rw [← hsplit] at hloop
    simp only [AddOrderUseCaseImpl.Execute, hadd, hloop]
  · intro orderResult err hadd hlines hstatus
    have hloop := addOrderProducts_all_ok u orderResult.ID command.Products 0
      (fun i line hline => by
        rw [Nat.zero_add]
        exact hlines i line hline)
    simp only [AddOrderUseCaseImpl.Execute, hadd, hloop, hstatus]

/-- C25, on a command with three lines: when the order cannot be stored nothing
else is called; when the second line cannot be stored the third line and the
status record are not added. -/
theorem Execute_stops_at_first_failure_witness :
    (orderFailsUseCase.orderRepository.AddOrder (newOrderEntity threeLinesCommand) =
        .error "database connection error" ∧
      secondLineFailsUseCase.orderProductRepository.AddOrderProduct 1
        (newOrderProductEntity 1 { ProductId := 20, Quantity := 2, Price := ⟨1101004800⟩ }) =
          some "product insert error") ∧
    orderFailsUseCase.Execute threeLinesCommand =
      (("", some "database connection error"),
        [UseCaseEvent.addOrder (newOrderEntity threeLinesCommand)]) ∧
    secondLineFailsUseCase.Execute threeLinesCommand =
      (("", some "product insert error"),
        [UseCaseEvent.addOrder (newOrderEntity threeLinesCommand),
          UseCaseEvent.addOrderProduct
            { ID := 0, OrderId := 1, ProductId := 10, Price := ⟨1092616192⟩, Quantity := 1 },
          UseCaseEvent.addOrderProduct
            { ID := 0, OrderId := 1, ProductId := 20, Price := ⟨1101004800⟩, Quantity := 2 }]) :=
  ⟨⟨rfl, rfl⟩,
    (Execute_stops_at_first_failure orderFailsUseCase threeLinesCommand).1
      "database connection error" rfl,
    ((Execute_stops_at_first_failure secondLineFailsUseCase threeLinesCommand).2.1
      { ID := 1, CreatedAt := zeroTime, TotalAmount := ⟨1124859904⟩, CustomerId := 5,
        Products := [], Status := [] }
      [{ ProductId := 10, Quantity := 1, Price := ⟨1092616192⟩ }]
      { ProductId := 20, Quantity := 2, Price := ⟨1101004800⟩ }
      [{ ProductId := 30, Quantity := 3, Price := ⟨1106247680⟩ }]
      "product insert error" rfl rfl
      (fun i line hline => by
        match i, hline with
        | 0, _ => rfl
        | n + 1, hline => simp at hline)
      rfl).trans (by decide)⟩

/-- C26, the claim as stated fails: for a command with status 7,
`UpdateOrderStatus.Execute` hands a record with status code 7 to the status
repository, and 7 is not one of 1, 2, 3, 4; the same holds for status 0. -/
theorem status_code_counterexample :
    acceptingStatusUseCase.Execute (NewUpdateOrderStatusCommand 123 7) =
      (none, [UseCaseEvent.addOrderStatus
        { ID := 0, CreatedAt := zeroTime, CurrentStatus := 7, OrderId := 123 }]) ∧
    ¬ validStatusCode 7 ∧
    acceptingStatusUseCase.Execute (NewUpdateOrderStatusCommand 123 0) =
      (none, [UseCaseEvent.addOrderStatus
        { ID := 0, CreatedAt := zeroTime, CurrentStatus := 0, OrderId := 123 }]) ∧
    ¬ validStatusCode 0 := by
  decide

/-- C26, amended: every status record that `AddOrder.Execute` hands to the status
repository has status code 1; `UpdateOrderStatus.Execute` hands over one record,
with the order id and the status code of the command unchanged, so that its code
is one of 1, 2, 3, 4 exactly when the command's status is. -/
theorem status_records_handed_over (u : AddOrderUseCaseImpl) (command : AddOrderCommand)
    (v : UpdateOrderStatusUseCaseImpl) (update : UpdateOrderStatusCommand) :
    (∀ record, UseCaseEvent.addOrderStatus record ∈ (u.Execute command).2 →
        record.CurrentStatus = 1 ∧ validStatusCode record.CurrentStatus) ∧
      (v.Execute update).2 =
        [UseCaseEvent.addOrderStatus
          { ID := 0, CreatedAt := zeroTime, CurrentStatus := update.Status,
            OrderId := update.OrderId }] ∧
      ∀ record, UseCaseEvent.addOrderStatus record ∈ (v.Execute update).2 →
        record.CurrentStatus = update.Status ∧
          (validStatusCode record.CurrentStatus ↔ validStatusCode update.Status) := by
  have hupdate : (v.Execute update).2 =
      [UseCaseEvent.addOrderStatus (newOrderStatusEntity update.OrderId update.Status)] := by
    cases hres : v.orderStatusRepository.AddOrderStatus
      (newOrderStatusEntity update.OrderId update.Status) <;>
      simp only [UpdateOrderStatusUseCaseImpl.Execute, hres]
  refine ⟨?_, hupdate, ?_⟩
  · intro record hrecord
    rcases Execute_events u command _ hrecord with h | ⟨_, _, h⟩ | ⟨orderId, h⟩
    · exact UseCaseEvent.noConfusion h
    · exact UseCaseEvent.noConfusion h
    · have hrec : record = newOrderStatusEntity orderId 1 := UseCaseEvent.addOrderStatus.inj h
      subst hrec
      exact ⟨rfl, Or.inl rfl⟩
  · intro record hrecord
    rw [hupdate, List.mem_singleton] at hrecord
    have hrec : record = newOrderStatusEntity update.OrderId update.Status :=
      UseCaseEvent.addOrderStatus.inj hrecord
    subst hrec
    exact ⟨rfl, Iff.rfl⟩

/-- C26 amended, on a stored order and on an update to status 3. -/
theorem status_records_handed_over_witness :
    UseCaseEvent.addOrderStatus
        { ID := 0, CreatedAt := zeroTime, CurrentStatus := 1, OrderId := 1 } ∈
      (unvalidatedUseCase.Execute threeLinesCommand).2 ∧
    (acceptingStatusUseCase.Execute (NewUpdateOrderStatusCommand 123 3)).2 =
      [UseCaseEvent.addOrderStatus
        { ID := 0, CreatedAt := zeroTime, CurrentStatus := 3, OrderId := 123 }] ∧
    validStatusCode
      (⟨0, zeroTime, 1, 1⟩ : OrderStatusEntity).CurrentStatus :=
  ⟨by decide,
    (status_records_handed_over unvalidatedUseCase threeLinesCommand acceptingStatusUseCase
      (NewUpdateOrderStatusCommand 123 3)).2.1,
    ((status_records_handed_over unvalidatedUseCase threeLinesCommand acceptingStatusUseCase
      (NewUpdateOrderStatusCommand 123 3)).1 ⟨0, zeroTime, 1, 1⟩ (by decide)).2⟩

/-- C29, the code at a failing input: for an `AddOrderDto` whose `CustomerId` is
`nil`, `Add` does not return: the dereference `*addOrderRequest.CustomerId` panics
before the use case is called, whatever the use case, the amount and the lines;
with a `CustomerId` that is present `Add` returns. -/
theorem Add_panics_without_customer_id (c : OrderControllerImpl) (totalAmount : Float32)
    (products : List AddOrderProductDto) :
    c.Add { CustomerId := none, TotalAmount := totalAmount, Products := products } =
        Outcome.panic "runtime error: invalid memory address or nil pointer dereference" ∧
      (∀ result, c.Add { CustomerId := none, TotalAmount := totalAmount, Products := products } ≠
        Outcome.returned result) ∧
      (∀ customerId, ∃ result,
        c.Add { CustomerId := some customerId, TotalAmount := totalAmount,
                Products := products } = Outcome.returned result) ∧
      sampleController.Add { CustomerId := none, TotalAmount := ⟨0⟩, Products := [] } =
        Outcome.panic "runtime error: invalid memory address or nil pointer dereference" := by
  refine ⟨rfl, fun result h => Outcome.noConfusion h, ?_, rfl⟩
  intro customerId
  unfold OrderControllerImpl.Add
  cases hres : c.addOrderUseCase.Execute (NewAddOrderCommand customerId totalAmount products) with
  | mk orderId err =>
    cases err with
    | some e => exact ⟨("", some e), by simp only [hres]⟩
    | none => exact ⟨(orderId, none), by simp only [hres]⟩

/-! ## Lemmas on successful calls of the transport -/

theorem requestCount_after_pos {α : Type} (h : httpClientImpl) (attempt : Int) (r : Run α) :
    1 ≤ requestCount (Run.after (sleepBefore h attempt ++ [TransportEvent.request]) r).trace := by
  show 1 ≤ requestCount ((sleepBefore h attempt ++ [TransportEvent.request]) ++ r.trace)
  rw [requestCount_append, requestCount_sleepBefore]
  omega

/-- Where a result without error comes from: either the loop test failed at once
with no error stored, or some attempt received a status in [200,300) whose body
was decoded when a target was supplied. -/
theorem doWithRetryLoop_success_source {α : Type} (h : httpClientImpl) (Do : Nat → DoResult)
    (response : Option (String → Except String α)) :
    ∀ (fuel : Nat) (attempt : Int) (calls : Nat) (lastErr : Option String) (run : Run α),
      doWithRetryLoop h Do response fuel attempt calls lastErr = some run → run.err = none →
      (lastErr = none ∧ ¬ attempt ≤ h.retries ∧ run.trace = []) ∨
      (∃ k StatusCode body, calls ≤ k ∧ Do k = DoResult.resp StatusCode body ∧
        200 ≤ StatusCode ∧ StatusCode < 300 ∧
        (∀ decode, response = some decode → ∃ v, decode body = .ok v ∧ run.decoded = some v) ∧
        1 ≤ requestCount run.trace) := by
  intro fuel
  induction fuel with
  | zero =>
    intro attempt calls lastErr run hrun _
    exact Option.noConfusion hrun
  | succ fuel ih =>
    intro attempt calls lastErr run hrun herr
    rw [doWithRetryLoop] at hrun
    by_cases hle : attempt ≤ h.retries
    · rw [if_pos hle] at hrun
      have hgo : ∀ stored : String,
          (doWithRetryLoop h Do response fuel (toInt64 (attempt + 1)) (calls + 1)
            (some stored)).map
              (Run.after (sleepBefore h attempt ++ [TransportEvent.request])) = some run →
          ∃ k StatusCode body, calls ≤ k ∧ Do k = DoResult.resp StatusCode body ∧
            200 ≤ StatusCode ∧ StatusCode < 300 ∧
            (∀ decode, response = some decode →
              ∃ v, decode body = .ok v ∧ run.decoded = some v) ∧
            1 ≤ requestCount run.trace := by
        intro stored hmap
        obtain ⟨later, hlater, hafter⟩ := Option.map_eq_some'.mp hmap
        subst hafter
        rcases ih _ _ _ later hlater herr with hstop | ⟨k, code, body, hk, hDo, hlo, hhi, hdec, _⟩
        · exact Option.noConfusion hstop.1
        · exact ⟨k, code, body, by omega, hDo, hlo, hhi, hdec, requestCount_after_pos h attempt later⟩
      cases hDo : Do calls with
      | err e =>
        rw [hDo] at hrun
        exact Or.inr (hgo _ hrun)
      | resp StatusCode body =>
        rw [hDo] at hrun
        by_cases h1 : StatusCode < 200 ∨ StatusCode ≥ 300
        · simp only [if_pos h1] at hrun
          by_cases h2 : StatusCode ≥ 400 ∧ StatusCode < 500
          · rw [if_pos h2] at hrun
            have hrun2 := Option.some.inj hrun
            rw [← hrun2] at herr
            exact Option.noConfusion herr
          · rw [if_neg h2] at hrun
            exact Or.inr (hgo _ hrun)
        · simp only [if_neg h1] at hrun
          have hcount : 1 ≤ requestCount (sleepBefore h attempt ++ [TransportEvent.request]) := by
            rw [requestCount_sleepBefore]
          refine Or.inr ⟨calls, StatusCode, body, Nat.le_refl _, hDo, by omega, by omega, ?_, ?_⟩
          · intro decode hresponse
            rw [hresponse] at hrun
            cases hdec : decode body with
            | error e =>
              simp only [hdec] at hrun
              have hrun2 := Option.some.inj hrun
              rw [← hrun2] at herr
              exact Option.noConfusion herr
            | ok v =>
              simp only [hdec] at hrun
              have hrun2 := Option.some.inj hrun
              exact ⟨v, rfl, by rw [← hrun2]⟩
          · cases response with
            | none =>
              simp only at hrun
              have hrun2 := Option.some.inj hrun
              rw [← hrun2]
              exact hcount
            | some decode =>
              cases hdec : decode body with
              | error e =>
                simp only [hdec] at hrun
                have hrun2 := Option.some.inj hrun
                rw [← hrun2] at herr
                exact Option.noConfusion herr
              | ok v =>
                simp only [hdec] at hrun
                have hrun2 := Option.some.inj hrun
                rw [← hrun2]
                exact hcount
    · rw [if_neg hle] at hrun
      have hrun2 := Option.some.inj hrun
      subst hrun2
      exact Or.inl ⟨herr, hle, rfl⟩

/-- With a retry count that is not negative, a call returns no error only when
some attempt received a status in [200,300), whose body was decoded when a target
was supplied; at least one request was made. -/
theorem doWithRetry_success_needs_response {α : Type} (h : httpClientImpl) (Do : Nat → DoResult)
    (response : Option (String → Except String α)) (hretries : 0 ≤ h.retries) (fuel : Nat)
    (run : Run α) (hrun : doWithRetry h Do response fuel = some run) (herr : run.err = none) :
    ∃ k StatusCode body, Do k = DoResult.resp StatusCode body ∧
      200 ≤ StatusCode ∧ StatusCode < 300 ∧
      (∀ decode, response = some decode → ∃ v, decode body = .ok v ∧ run.decoded = some v) ∧
      1 ≤ requestCount run.trace := by
  rcases doWithRetryLoop_success_source h Do response fuel 0 0 none run hrun herr with
    hstop | ⟨k, code, body, _, hDo, hlo, hhi, hdec, hcount⟩
  · exact absurd hretries hstop.2.1
  · exact ⟨k, code, body, hDo, hlo, hhi, hdec, hcount⟩

/-! ## Resilient transport: success and the retry count -/

/-- C27: for every retry count `N >= 0` and every `k` with `1 <= k <= N + 1`,
when the attempts 1 to `k - 1` fail retryably and attempt `k` receives a status in
[200,300) with a body that decodes, the call performs exactly `k` requests, with
`k - 1` waits, and returns no error and the decoded value; the answered request is
the last effect. Without a target the call succeeds in the same way. -/
theorem doWithRetry_succeeds_at_attempt {α : Type} (h : httpClientImpl) (Do : Nat → DoResult)
    (N k : Nat) (StatusCode : Int) (body : String) (hN : h.retries = (N : Int))
    (hint : (N : Int) < 2 ^ 63) (hk1 : 1 ≤ k) (hk : k ≤ N + 1)
    (hprev : ∀ j, j + 1 < k → retryable (Do j) = true)
    (hresp : Do (k - 1) = DoResult.resp StatusCode body)
    (h2xx : 200 ≤ StatusCode ∧ StatusCode < 300)
    (decode : String → Except String α) (v : α) (hdecode : decode body = .ok v)
    (fuel : Nat) (hfuel : k ≤ fuel) :
    ∃ run, doWithRetry h Do (some decode) fuel = some run ∧
      run.err = none ∧ run.decoded = some v ∧
      run.trace = attemptEvents h 0 k ∧
      requestCount run.trace = k ∧
      (sleeps run.trace).length = k - 1 ∧
      run.trace.getLast? = some TransportEvent.request ∧
      doWithRetry h Do (none : Option (String → Except String α)) fuel =
        some { err := none, decoded := none, trace := run.trace } := by
  obtain ⟨i, hi⟩ : ∃ i, k = i + 1 := ⟨k - 1, by omega⟩
  subst hi
  have hidx : i + 1 - 1 = i := by omega
  rw [hidx] at hresp
  obtain ⟨extra, hextra⟩ := Nat.exists_eq_add_of_le hfuel
  have hsplit : fuel = extra + 1 + i := by omega
  have hintr : isInt64 h.retries := by
    unfold isInt64
    rw [hN]
    omega
  have hle : (i : Int) ≤ h.retries := by
    rw [hN]
    omega
  have hstep := fun (response : Option (String → Except String α)) =>
    doWithRetryLoop_success_step h Do response extra i (lastErrAfter h Do 0 i none)
      StatusCode body hle hresp h2xx
  have hrun := fun (response : Option (String → Except String α)) =>
    doWithRetry_after_failures h Do response i hintr hle
      (fun j hj => hprev j (by omega)) extra
  have hsnoc := attemptEvents_zero_snoc h i
  have hsome : doWithRetry h Do (some decode) fuel =
      some { err := none, decoded := some v, trace := attemptEvents h 0 (i + 1) } := by
    rw [hsplit, hrun (some decode), hstep (some decode)]
    simp only [hdecode, Option.map_some', Run.after, hsnoc]
  have hnone : doWithRetry h Do (none : Option (String → Except String α)) fuel =
      some { err := none, decoded := none, trace := attemptEvents h 0 (i + 1) } := by
    rw [hsplit, hrun none, hstep none]
    simp only [Option.map_some', Run.after, hsnoc]
  exact ⟨_, hsome, rfl, rfl, rfl, requestCount_attemptEvents h (i + 1) 0,
    by rw [hidx]; exact sleeps_attemptEvents_zero h i, getLast?_attemptEvents h i 0, hnone⟩

/-- C27, on the default configuration (3 retries) against a service that fails
three times and answers 200 on the fourth attempt: four requests, three waits,
and the decoded value. -/
theorem doWithRetry_succeeds_at_attempt_witness :
    (defaultClient.retries = ((3 : Nat) : Int) ∧ ((3 : Nat) : Int) < 2 ^ 63 ∧ 1 ≤ 4 ∧
      4 ≤ 3 + 1 ∧ (∀ j, j + 1 < 4 → retryable (recoversAtFourth j) = true) ∧
      recoversAtFourth (4 - 1) = DoResult.resp 200 "payload" ∧
      decodeLength "payload" = .ok 7) ∧
    doWithRetry defaultClient recoversAtFourth (some decodeLength) 4 =
      some { err := none
             decoded := some 7
             trace := [TransportEvent.request, TransportEvent.sleep 100000000,
               TransportEvent.request, TransportEvent.sleep 200000000,
               TransportEvent.request, TransportEvent.sleep 400000000,
               TransportEvent.request] } ∧
    ∃ run, doWithRetry defaultClient recoversAtFourth (some decodeLength) 4 = some run ∧
      run.err = none ∧ run.decoded = some 7 ∧ requestCount run.trace = 4 :=
  have hprev : ∀ j, j + 1 < 4 → retryable (recoversAtFourth j) = true := by
    intro j hj
    match j, hj with
    | 0, _ => rfl
    | 1, _ => rfl
    | 2, _ => rfl
    | n + 3, hj => omega
  ⟨⟨rfl, by decide, by decide, by decide, hprev, rfl, rfl⟩, by decide,
    match doWithRetry_succeeds_at_attempt defaultClient recoversAtFourth 3 4 200 "payload" rfl
        (by decide) (by decide) (by decide) hprev rfl ⟨by decide, by decide⟩ decodeLength 7 rfl
        4 (by decide) with
    | ⟨run, hrun, herr, hdec, _, hcount, _⟩ => ⟨run, hrun, herr, hdec, hcount⟩⟩

/-- C28, the code at a failing input: with a retry count of -1 the loop test fails
before the first iteration and `doWithRetry` returns `lastErr`, still `nil`:
against a service that answers every attempt with 503, and against one that
refuses every connection, `Get` and `Post` return no error, having made no
request and decoded nothing. -/
theorem negative_retries_succeed_without_request :
    negativeRetriesClient.retries = -1 ∧
    doWithRetry negativeRetriesClient alwaysUnavailable (some decodeLength) 1 =
      some { err := none, decoded := none, trace := [] } ∧
    Get negativeRetriesClient (.ok ()) alwaysUnavailable (some decodeLength) 1 =
      some { err := none, decoded := none, trace := [] } ∧
    Post negativeRetriesClient none (.ok ()) alwaysRefused (some decodeLength) 1 =
      some { err := none, decoded := none, trace := [] } ∧
    (∀ k, ¬ ∃ StatusCode body, alwaysUnavailable k = DoResult.resp StatusCode body ∧
      200 ≤ StatusCode ∧ StatusCode < 300) := by
  refine ⟨rfl, by decide, by decide, by decide, ?_⟩
  rintro k ⟨StatusCode, body, hresp, hlo, hhi⟩
  have hcode : (503 : Int) = StatusCode := by
    unfold alwaysUnavailable at hresp
    exact (DoResult.resp.inj hresp).1
  omega

end OrderService
